import Mathlib

/-!
Verification of the mailin SMTP receiver suite: a shallow embedding of the
SMTP session engine (crate mailin: src/lib.rs, src/fsm.rs, src/smtp.rs,
src/parser.rs), the streaming MIME event machinery (crate mime-event:
src/parser.rs with its helpers) and the blocklist / FCrDNS combination
logic (crate mxdns: src/lib.rs), together with theorems settling the
specification claims.
-/

namespace Mailin

/-- Byte strings: Rust `&[u8]` / `Vec<u8>` as lists of byte values. -/
abbrev Bytes := List Nat

/-- Byte string literal helper: ASCII text to bytes. -/
def bs (s : String) : Bytes := s.data.map Char.toNat

--------------------------------------------------------------------------------
-- Response model (mailin/src/lib.rs)
--------------------------------------------------------------------------------

/-- `Action` from mailin/src/lib.rs. -/
inductive Action where
  | close
  | upgradeTls
  | noReply
  | reply
deriving DecidableEq, Repr

/-- `Message` from mailin/src/lib.rs: dynamic head and tail, fixed text, or empty. -/
inductive Message where
  | dynamic (head : String) (tail : List String)
  | fixed (text : String)
  | empty
deriving DecidableEq, Repr

/-- `Response` from mailin/src/lib.rs. -/
structure Response where
  code : Nat
  message : Message
  isError : Bool
  action : Action
  ehloOk : Bool
deriving DecidableEq, Repr

/-- `Response::fixed_action` from mailin/src/lib.rs. -/
def Response.fixedAction (code : Nat) (text : String) (action : Action) : Response :=
  { code := code
    message := .fixed text
    isError := decide (code < 200) || decide (code ≥ 400)
    action := action
    ehloOk := false }

/-- `Response::fixed` from mailin/src/lib.rs: action derived from the code. -/
def Response.fixed (code : Nat) (text : String) : Response :=
  Response.fixedAction code text (if code = 221 ∨ code = 421 then .close else .reply)

/-- `Response::ehlo_ok` from mailin/src/lib.rs. -/
def Response.ehloOkResponse : Response :=
  { code := 250, message := .fixed "", isError := false, action := .reply, ehloOk := true }

/-- `Response::dynamic` from mailin/src/lib.rs. -/
def Response.dynamic (code : Nat) (head : String) (tail : List String) : Response :=
  { code := code, message := .dynamic head tail, isError := false, action := .reply
    ehloOk := false }

/-- `Response::empty` from mailin/src/lib.rs. -/
def Response.emptyResponse : Response :=
  { code := 0, message := .empty, isError := false, action := .noReply, ehloOk := false }

-- Static response constants from mailin/src/lib.rs
def AUTH_OK : Response := Response.fixed 235 "Authentication succeeded"
def OK : Response := Response.fixed 250 "OK"
def NO_SERVICE : Response := Response.fixed 421 "Service not available, closing connection"
def INTERNAL_ERROR : Response := Response.fixed 451 "Aborted: local error in processing"
def OUT_OF_SPACE : Response := Response.fixed 452 "Insufficient system storage"
def TEMP_AUTH_FAILURE : Response := Response.fixed 454 "Temporary authentication failure"
def NO_STORAGE : Response := Response.fixed 552 "Exceeded storage allocation"
def AUTH_REQUIRED : Response := Response.fixed 530 "Authentication required"
def INVALID_CREDENTIALS : Response := Response.fixed 535 "Invalid credentials"
def NO_MAILBOX : Response := Response.fixed 550 "Mailbox unavailable"
def BAD_HELLO : Response := Response.fixed 550 "Bad HELO"
def BLOCKED_IP : Response := Response.fixed 550 "IP address on blocklists"
def BAD_MAILBOX : Response := Response.fixed 553 "Mailbox name not allowed"
def TRANSACTION_FAILED : Response := Response.fixed 554 "Transaction failed"

-- Static response constants from mailin/src/smtp.rs
def EMPTY_RESPONSE : Response := Response.emptyResponse
def START_TLS : Response := Response.fixedAction 220 "Ready to start TLS" .upgradeTls
def GOODBYE : Response := Response.fixed 221 "Goodbye"
def VERIFY_RESPONSE : Response := Response.fixed 252 "Maybe"
def START_DATA : Response := Response.fixed 354 "Start mail input; end with <CRLF>.<CRLF>"
def INVALID_STATE : Response := Response.fixed 421 "Internal service error, closing connection"
def SYNTAX_ERROR : Response := Response.fixed 500 "Syntax error"
def MISSING_PARAMETER : Response := Response.fixed 502 "Missing parameter"
def BAD_SEQUENCE_COMMANDS : Response := Response.fixed 503 "Bad sequence of commands"
def AUTHENTICATION_REQUIRED : Response := Response.fixed 530 "Authentication required"

--------------------------------------------------------------------------------
-- Commands (mailin/src/smtp.rs `Cmd`, extended with the AUTH LOGIN variants
-- produced by mailin/src/parser.rs)
--------------------------------------------------------------------------------

/-- `Cmd` from mailin/src/smtp.rs; string payloads are kept as validated byte
strings. The `authLogin` variants come from mailin/src/parser.rs. -/
inductive Cmd where
  | ehlo (domain : Bytes)
  | helo (domain : Bytes)
  | mail (reversePath : Bytes) (is8bit : Bool)
  | rcpt (forwardPath : Bytes)
  | data
  | rset
  | noop
  | startTls
  | quit
  | vrfy
  | authPlain (authorizationId authenticationId password : Bytes)
  | authPlainEmpty
  | authLogin (username : Bytes)
  | authLoginEmpty
  | authResponse (response : Bytes)
  | dataEnd
  | startedTls
deriving DecidableEq, Repr

/-- `Credentials` from mailin/src/smtp.rs. -/
structure Credentials where
  authorizationId : Bytes
  authenticationId : Bytes
  password : Bytes
deriving DecidableEq, Repr

--------------------------------------------------------------------------------
-- Handler results (mailin/src/lib.rs)
--------------------------------------------------------------------------------

inductive HeloResult where
  | ok
  | badHelo
  | blockedIp
deriving DecidableEq, Repr

inductive MailResult where
  | ok
  | noService
  | internalError
  | outOfSpace
  | authRequired
  | noStorage
deriving DecidableEq, Repr

inductive RcptResult where
  | ok
  | noMailbox
  | noStorage
  | badMailbox
  | internalError
  | outOfSpace
  | noService
deriving DecidableEq, Repr

/-- Model of `Box<dyn Write>`: the bytes accepted so far, plus a plan of
outcomes for the upcoming `write_all` calls (an exhausted plan means every
further write succeeds). A failing write accepts nothing. -/
structure MWriter where
  acc : Bytes
  plan : List Bool
deriving DecidableEq, Repr

/-- `io::Write::write_all` on the writer model: first component is whether the
write succeeded. -/
def MWriter.writeAll (w : MWriter) (line : Bytes) : Bool × MWriter :=
  match w.plan with
  | [] => (true, { w with acc := w.acc ++ line })
  | b :: rest =>
      if b then (true, { acc := w.acc ++ line, plan := rest })
      else (false, { w with plan := rest })

/-- `std::io::sink()`: a writer that accepts everything. -/
def sinkWriter : MWriter := { acc := [], plan := [] }

inductive DataResult where
  | ok (writer : MWriter)
  | internalError
  | transactionFailed
  | noService
deriving DecidableEq, Repr

inductive AuthResult where
  | ok
  | temporaryFailure
  | invalidCredentials
deriving DecidableEq, Repr

/-- `From<HeloResult> for Response` (mailin/src/lib.rs). -/
def HeloResult.toResponse : HeloResult → Response
  | .ok => OK
  | .badHelo => BAD_HELLO
  | .blockedIp => BLOCKED_IP

/-- `From<MailResult> for Response` (mailin/src/lib.rs). -/
def MailResult.toResponse : MailResult → Response
  | .ok => OK
  | .noService => NO_SERVICE
  | .internalError => INTERNAL_ERROR
  | .outOfSpace => OUT_OF_SPACE
  | .authRequired => AUTH_REQUIRED
  | .noStorage => NO_STORAGE

/-- `From<RcptResult> for Response` (mailin/src/lib.rs). -/
def RcptResult.toResponse : RcptResult → Response
  | .ok => OK
  | .noMailbox => NO_MAILBOX
  | .noStorage => NO_STORAGE
  | .badMailbox => BAD_MAILBOX
  | .internalError => INTERNAL_ERROR
  | .outOfSpace => OUT_OF_SPACE
  | .noService => NO_SERVICE

/-- `From<DataResult> for Response` (mailin/src/lib.rs); the `Ok` arm is
unreachable in the source and is mapped like the caller never observes it. -/
def DataResult.toResponse : DataResult → Response
  | .internalError => INTERNAL_ERROR
  | .transactionFailed => TRANSACTION_FAILED
  | .noService => NO_SERVICE
  | .ok _ => INTERNAL_ERROR

/-- `From<AuthResult> for Response` (mailin/src/lib.rs). -/
def AuthResult.toResponse : AuthResult → Response
  | .ok => AUTH_OK
  | .temporaryFailure => TEMP_AUTH_FAILURE
  | .invalidCredentials => INVALID_CREDENTIALS

/-- IP addresses, abstracted as byte lists; the engine only threads them
through to the handler callbacks. -/
abbrev IpAddr := List Nat

/-- The `Handler` trait of mailin/src/lib.rs, as a record of pure callbacks. -/
structure Handler where
  helo : IpAddr → Bytes → HeloResult
  mail : IpAddr → Bytes → Bytes → MailResult
  rcpt : Bytes → RcptResult
  data : Bytes → Bytes → Bool → List Bytes → DataResult
  authPlain : Bytes → Bytes → Bytes → AuthResult

/-- The all-default handler: every callback keeps its trait default. -/
def emptyHandler : Handler :=
  { helo := fun _ _ => .ok
    mail := fun _ _ _ => .ok
    rcpt := fun _ => .ok
    data := fun _ _ _ _ => .ok sinkWriter
    authPlain := fun _ _ _ => .invalidCredentials }

end Mailin

namespace Mailin

--------------------------------------------------------------------------------
-- SMTP state machine (mailin/src/fsm.rs)
--------------------------------------------------------------------------------

/-- `TlsState` from mailin/src/fsm.rs. -/
inductive TlsState where
  | unavailable
  | inactive
  | active
deriving DecidableEq, Repr

/-- `AuthState` from mailin/src/fsm.rs. -/
inductive AuthState where
  | unavailable
  | requiresAuth
  | authenticated
deriving DecidableEq, Repr

/-- `AuthMechanism` from mailin/src/lib.rs. -/
inductive AuthMechanism where
  | plain
deriving DecidableEq, Repr

/-- `AuthMechanism::extension` from mailin/src/lib.rs. -/
def AuthMechanism.extension : AuthMechanism → String
  | .plain => "AUTH PLAIN"

/-- The boxed `State` trait objects of mailin/src/fsm.rs, flattened into one
sum with each struct's fields as payload. -/
inductive SmtpState where
  | idle
  | hello (domain : Bytes)
  | helloAuth (domain : Bytes)
  | auth (domain : Bytes) (mechanism : AuthMechanism)
  | mail (domain reversePath : Bytes) (is8bit : Bool)
  | rcpt (domain reversePath : Bytes) (is8bit : Bool) (forwardPath : List Bytes)
  | data (domain : Bytes) (writer : MWriter)
deriving DecidableEq, Repr

/-- `StateMachine` from mailin/src/fsm.rs. -/
structure StateMachine where
  ip : IpAddr
  auth : AuthState
  tls : TlsState
  smtp : Option SmtpState
  authPlain : Bool

/-- `StateMachine::new` from mailin/src/fsm.rs. -/
def StateMachine.new (ip : IpAddr) (authMechanisms : List AuthMechanism)
    (allowStartTls : Bool) : StateMachine :=
  { ip := ip
    auth := if authMechanisms.isEmpty then .unavailable else .requiresAuth
    tls := if allowStartTls then .inactive else .unavailable
    smtp := some .idle
    authPlain := authMechanisms.any (fun m => m = .plain) }

/-- `StateMachine::allow_auth_plain` from mailin/src/fsm.rs. -/
def StateMachine.allowAuthPlain (m : StateMachine) : Bool :=
  m.authPlain && m.tls = .active

/-- `next_state` from mailin/src/fsm.rs: pick the follow-up state from the
response. -/
def nextStateFrom (current : SmtpState) (res : Response) (next : Unit → SmtpState) :
    Response × Option SmtpState :=
  if res.action = .close then (res, none)
  else if res.isError then (res, some current)
  else (res, some (next ()))

/-- `transform_state` from mailin/src/fsm.rs: like `next_state` but the new
state consumes the current one. -/
def transformState (current : SmtpState) (res : Response)
    (next : SmtpState → SmtpState) : Response × Option SmtpState :=
  if res.action = .close then (res, none)
  else if res.isError then (res, some current)
  else (res, some (next current))

/-- `unhandled` from mailin/src/fsm.rs. -/
def unhandled (current : SmtpState) : Response × Option SmtpState :=
  (BAD_SEQUENCE_COMMANDS, some current)

/-- `handle_rset` from mailin/src/fsm.rs. -/
def handleRset (m : StateMachine) (domain : Bytes) : Response × Option SmtpState :=
  match m.auth with
  | .unavailable => (OK, some (.hello domain))
  | _ => (OK, some (.helloAuth domain))

/-- `handle_helo` from mailin/src/fsm.rs. -/
def handleHelo (current : SmtpState) (m : StateMachine) (h : Handler)
    (domain : Bytes) : Response × Option SmtpState :=
  match m.auth with
  | .unavailable =>
      nextStateFrom current (h.helo m.ip domain).toResponse (fun _ => .hello domain)
  | _ => (BAD_HELLO, some current)

/-- `handle_ehlo` from mailin/src/fsm.rs. -/
def handleEhlo (current : SmtpState) (m : StateMachine) (h : Handler)
    (domain : Bytes) : Response × Option SmtpState :=
  let res := match h.helo m.ip domain with
    | .ok => Response.ehloOkResponse
    | r => r.toResponse
  match m.auth with
  | .unavailable => nextStateFrom current res (fun _ => .hello domain)
  | _ => nextStateFrom current res (fun _ => .helloAuth domain)

/-- `default_handler` from mailin/src/fsm.rs: the commands every state accepts. -/
def defaultHandler (current : SmtpState) (m : StateMachine) (h : Handler)
    (cmd : Cmd) : Response × Option SmtpState :=
  match cmd with
  | .quit => (GOODBYE, none)
  | .helo domain => handleHelo current m h domain
  | .ehlo domain => handleEhlo current m h domain
  | _ => unhandled current

/-- `authenticate` from mailin/src/fsm.rs: runs the handler callback and
updates the machine's auth state. -/
def authenticate (m : StateMachine) (h : Handler)
    (authorizationId authenticationId password : Bytes) : Response × StateMachine :=
  let authRes := h.authPlain authorizationId authenticationId password
  let auth' : AuthState := match authRes with
    | .ok => .authenticated
    | _ => .requiresAuth
  (authRes.toResponse, { m with auth := auth' })

/-- `decode_sasl_plain`, field splitting (mailin/src/parser.rs): split on zero
bytes; missing fields default to empty, like `next_string`. -/
def saslFields (bytes : Bytes) : Credentials :=
  let fields := bytes.splitOn 0
  { authorizationId := fields.getD 0 []
    authenticationId := fields.getD 1 []
    password := fields.getD 2 [] }

/-- Value of one base64 alphabet character (standard alphabet). -/
def b64Val (c : Nat) : Option Nat :=
  if 65 ≤ c ∧ c ≤ 90 then some (c - 65)
  else if 97 ≤ c ∧ c ≤ 122 then some (c - 97 + 26)
  else if 48 ≤ c ∧ c ≤ 57 then some (c - 48 + 52)
  else if c = 43 then some 62
  else if c = 47 then some 63
  else none

/-- `base64::decode` with the standard alphabet and mandatory padding. -/
def base64Decode : Bytes → Option Bytes
  | [] => some []
  | [a, b, 61, 61] => do
      let va ← b64Val a
      let vb ← b64Val b
      pure [va * 4 + vb / 16]
  | [a, b, c, 61] => do
      let va ← b64Val a
      let vb ← b64Val b
      let vc ← b64Val c
      pure [va * 4 + vb / 16, (vb % 16) * 16 + vc / 4]
  | a :: b :: c :: d :: rest => do
      let va ← b64Val a
      let vb ← b64Val b
      let vc ← b64Val c
      let vd ← b64Val d
      let tail ← base64Decode rest
      pure ([va * 4 + vb / 16, (vb % 16) * 16 + vc / 4, (vc % 4) * 64 + vd] ++ tail)
  | _ => none

/-- `decode_sasl_plain` from mailin/src/parser.rs: base64-decode, split on
zero bytes, missing or invalid fields default to empty. -/
def decodeSaslPlain (param : Bytes) : Credentials :=
  match base64Decode param with
  | some bytes => saslFields bytes
  | none => { authorizationId := [], authenticationId := [], password := [] }

/-- The `State::handle` implementations of mailin/src/fsm.rs, flattened into
one dispatcher; returns the response, the machine with any auth/tls updates,
and the next state. -/
def handleState (s : SmtpState) (m : StateMachine) (h : Handler) (cmd : Cmd) :
    Response × StateMachine × Option SmtpState :=
  match s, cmd with
  | .idle, .startedTls =>
      (EMPTY_RESPONSE, { m with tls := .active }, some .idle)
  | .idle, .rset => (OK, m, some .idle)
  | .idle, c =>
      let r := defaultHandler .idle m h c
      (r.1, m, r.2)
  | .hello domain, .mail reversePath is8bit =>
      let res := (h.mail m.ip domain reversePath).toResponse
      let r := transformState (.hello domain) res
        (fun _ => .mail domain reversePath is8bit)
      (r.1, m, r.2)
  | .hello domain, .startTls =>
      if m.tls = .inactive then (START_TLS, m, some .idle)
      else
        let r := defaultHandler (.hello domain) m h .startTls
        (r.1, m, r.2)
  | .hello domain, .vrfy => (VERIFY_RESPONSE, m, some (.hello domain))
  | .hello domain, .rset =>
      let r := handleRset m domain
      (r.1, m, r.2)
  | .hello domain, c =>
      let r := defaultHandler (.hello domain) m h c
      (r.1, m, r.2)
  | .helloAuth _, .startTls => (START_TLS, m, some .idle)
  | .helloAuth domain, .authPlain authorizationId authenticationId password =>
      if m.allowAuthPlain then
        let am := authenticate m h authorizationId authenticationId password
        let r := transformState (.helloAuth domain) am.1 (fun _ => .hello domain)
        (r.1, am.2, r.2)
      else
        let r := defaultHandler (.helloAuth domain) m h
          (.authPlain authorizationId authenticationId password)
        (r.1, m, r.2)
  | .helloAuth domain, .authPlainEmpty =>
      if m.allowAuthPlain then
        (Response.fixed 334 "", m, some (.auth domain .plain))
      else
        let r := defaultHandler (.helloAuth domain) m h .authPlainEmpty
        (r.1, m, r.2)
  | .helloAuth domain, .rset =>
      let r := handleRset m domain
      (r.1, m, r.2)
  | .helloAuth domain, c =>
      let r := defaultHandler (.helloAuth domain) m h c
      (r.1, m, r.2)
  | .auth domain mechanism, .authResponse response =>
      let am := match mechanism with
        | .plain =>
            let creds := decodeSaslPlain response
            authenticate m h creds.authorizationId creds.authenticationId
              creds.password
      if am.1.isError then (am.1, am.2, some (.helloAuth domain))
      else (am.1, am.2, some (.hello domain))
  | .auth domain mechanism, _ =>
      let r := unhandled (.auth domain mechanism)
      (r.1, m, r.2)
  | .mail domain reversePath is8bit, .rcpt forwardPath =>
      let res := (h.rcpt forwardPath).toResponse
      let r := transformState (.mail domain reversePath is8bit) res
        (fun _ => .rcpt domain reversePath is8bit [forwardPath])
      (r.1, m, r.2)
  | .mail domain _ _, .rset =>
      let r := handleRset m domain
      (r.1, m, r.2)
  | .mail domain reversePath is8bit, c =>
      let r := defaultHandler (.mail domain reversePath is8bit) m h c
      (r.1, m, r.2)
  | .rcpt domain reversePath is8bit forwardPath, .data =>
      let rw := match h.data domain reversePath is8bit forwardPath with
        | .ok w => (START_DATA, w)
        | r => (r.toResponse, sinkWriter)
      let r := transformState (.rcpt domain reversePath is8bit forwardPath)
        rw.1 (fun _ => .data domain rw.2)
      (r.1, m, r.2)
  | .rcpt domain reversePath is8bit forwardPath, .rcpt fp =>
      let res := (h.rcpt fp).toResponse
      let r := transformState (.rcpt domain reversePath is8bit forwardPath)
        res (fun _ => .rcpt domain reversePath is8bit (forwardPath ++ [fp]))
      (r.1, m, r.2)
  | .rcpt domain _ _ _, .rset =>
      let r := handleRset m domain
      (r.1, m, r.2)
  | .rcpt domain reversePath is8bit forwardPath, c =>
      let r := defaultHandler (.rcpt domain reversePath is8bit forwardPath) m h c
      (r.1, m, r.2)
  | .data domain _, .dataEnd => (OK, m, some (.hello domain))
  | .data domain writer, _ =>
      let r := unhandled (.data domain writer)
      (r.1, m, r.2)

/-- `StateMachine::command` from mailin/src/fsm.rs. -/
def StateMachine.command (m : StateMachine) (h : Handler) (cmd : Cmd) :
    Response × StateMachine :=
  match m.smtp with
  | some s =>
      let (res, m', st) := handleState s m h cmd
      (res, { m' with smtp := st })
  | none => (INVALID_STATE, { m with smtp := none })

end Mailin

namespace Mailin

--------------------------------------------------------------------------------
-- Command line parser (mailin/src/parser.rs), over a model of the complete
-- nom combinators: a parser returns the remaining input and the value, or
-- fails. The complete byte combinators used by the source never report
-- Incomplete, so one failure mode suffices.
--------------------------------------------------------------------------------

/-- A nom-style parser over bytes. -/
abbrev NomP (α : Type) := Bytes → Option (Bytes × α)

/-- ASCII lower-casing of one byte, as used by nom `tag_no_case`. -/
def lowerByte (b : Nat) : Nat := if 65 ≤ b ∧ b ≤ 90 then b + 32 else b

/-- nom `tag`. -/
def tagP (t : Bytes) : NomP Bytes := fun buf =>
  if t.isPrefixOf buf then some (buf.drop t.length, t) else none

/-- nom `tag_no_case` for ASCII byte tags. -/
def tagNoCaseP (t : Bytes) : NomP Bytes := fun buf =>
  let taken := buf.take t.length
  if taken.map lowerByte = t.map lowerByte ∧ t.length ≤ buf.length then
    some (buf.drop t.length, taken)
  else none

/-- nom `take_while1`. -/
def takeWhile1P (p : Nat → Bool) : NomP Bytes := fun buf =>
  let taken := buf.takeWhile p
  if taken.isEmpty then none else some (buf.drop taken.length, taken)

/-- nom `is_not`: take one or more bytes not in the given set. -/
def isNotP (set : Bytes) : NomP Bytes :=
  takeWhile1P (fun b => !set.contains b)

/-- nom `preceded`. -/
def precededP (p : NomP α) (q : NomP β) : NomP β := fun buf =>
  match p buf with
  | some (rest, _) => q rest
  | none => none

/-- nom `terminated`. -/
def terminatedP (p : NomP α) (q : NomP β) : NomP α := fun buf =>
  match p buf with
  | some (rest, v) =>
      match q rest with
      | some (rest', _) => some (rest', v)
      | none => none
  | none => none

/-- nom `pair`. -/
def pairP (p : NomP α) (q : NomP β) : NomP (α × β) := fun buf =>
  match p buf with
  | some (rest, a) =>
      match q rest with
      | some (rest', b) => some (rest', (a, b))
      | none => none
  | none => none

/-- nom `separated_pair`. -/
def separatedPairP (p : NomP α) (sep : NomP γ) (q : NomP β) : NomP (α × β) := fun buf =>
  match p buf with
  | some (rest, a) =>
      match sep rest with
      | some (rest', _) =>
          match q rest' with
          | some (rest'', b) => some (rest'', (a, b))
          | none => none
      | none => none
  | none => none

/-- nom `map`. -/
def mapP (p : NomP α) (f : α → β) : NomP β := fun buf =>
  match p buf with
  | some (rest, a) => some (rest, f a)
  | none => none

/-- nom `value`. -/
def valueP (v : β) (p : NomP α) : NomP β := mapP p (fun _ => v)

/-- nom `alt` over a list of alternatives. -/
def altP (ps : List (NomP α)) : NomP α := fun buf =>
  match ps with
  | [] => none
  | p :: rest =>
      match p buf with
      | some r => some r
      | none => altP rest buf

/-- Continuation byte test for UTF-8 validation. -/
def isUtf8Cont (b : Nat) : Bool := 128 ≤ b && b ≤ 191

/-- UTF-8 validity of a byte string, the check behind `str::from_utf8`. -/
def utf8Valid : Bytes → Bool
  | [] => true
  | b :: rest =>
      if b ≤ 127 then utf8Valid rest
      else if 194 ≤ b && b ≤ 223 then
        match rest with
        | c :: r => isUtf8Cont c && utf8Valid r
        | [] => false
      else if b = 224 then
        match rest with
        | c1 :: c2 :: r => (160 ≤ c1 && c1 ≤ 191) && isUtf8Cont c2 && utf8Valid r
        | _ => false
      else if (225 ≤ b && b ≤ 236) || b = 238 || b = 239 then
        match rest with
        | c1 :: c2 :: r => isUtf8Cont c1 && isUtf8Cont c2 && utf8Valid r
        | _ => false
      else if b = 237 then
        match rest with
        | c1 :: c2 :: r => (128 ≤ c1 && c1 ≤ 159) && isUtf8Cont c2 && utf8Valid r
        | _ => false
      else if b = 240 then
        match rest with
        | c1 :: c2 :: c3 :: r =>
            (144 ≤ c1 && c1 ≤ 191) && isUtf8Cont c2 && isUtf8Cont c3 && utf8Valid r
        | _ => false
      else if 241 ≤ b && b ≤ 243 then
        match rest with
        | c1 :: c2 :: c3 :: r =>
            isUtf8Cont c1 && isUtf8Cont c2 && isUtf8Cont c3 && utf8Valid r
        | _ => false
      else if b = 244 then
        match rest with
        | c1 :: c2 :: c3 :: r =>
            (128 ≤ c1 && c1 ≤ 143) && isUtf8Cont c2 && isUtf8Cont c3 && utf8Valid r
        | _ => false
      else false

/-- nom `map_res` with `str::from_utf8`: keep the bytes, but require validity. -/
def mapResUtf8 (p : NomP Bytes) : NomP Bytes := fun buf =>
  match p buf with
  | some (rest, v) => if utf8Valid v then some (rest, v) else none
  | none => none

/-- `space` from mailin/src/parser.rs: one or more spaces. -/
def spaceP : NomP Bytes := takeWhile1P (fun b => b = 32)

/-- `cmd` from mailin/src/parser.rs: a case-insensitive verb followed by spaces. -/
def cmdP (t : Bytes) : NomP (Bytes × Bytes) := pairP (tagNoCaseP t) spaceP

/-- `hello_domain` from mailin/src/parser.rs. -/
def helloDomainP : NomP Bytes := mapResUtf8 (isNotP (bs " \t\r\n"))

/-- `helo` from mailin/src/parser.rs. -/
def heloP : NomP Cmd := mapP (precededP (cmdP (bs "helo")) helloDomainP) Cmd.helo

/-- `ehlo` from mailin/src/parser.rs. -/
def ehloP : NomP Cmd := mapP (precededP (cmdP (bs "ehlo")) helloDomainP) Cmd.ehlo

/-- `mail_path` from mailin/src/parser.rs. -/
def mailPathP : NomP Bytes := mapResUtf8 (isNotP (bs " <>\t\r\n"))

/-- `take_all` from mailin/src/parser.rs. -/
def takeAllP : NomP Bytes := mapResUtf8 (isNotP (bs "\r\n"))

/-- `body_eq_8bit` from mailin/src/parser.rs. -/
def bodyEq8bitP : NomP Bool :=
  precededP (pairP spaceP (tagNoCaseP (bs "body=")))
    (altP [valueP true (tagNoCaseP (bs "8bitmime")), valueP false (tagNoCaseP (bs "7bit"))])

/-- `is8bitmime` from mailin/src/parser.rs: optional BODY parameter, default
7bit. -/
def is8bitmimeP : NomP Bool := fun buf =>
  match bodyEq8bitP buf with
  | some r => some r
  | none => some (buf, false)

/-- `mail` from mailin/src/parser.rs: the `FROM:<path>` grammar, with the
source's retry branch that accepts a single space after the colon. -/
def mailP : NomP Cmd := fun buf =>
  let r1 := mapP
    (separatedPairP
      (precededP (pairP (cmdP (bs "mail")) (tagNoCaseP (bs "from:<"))) mailPathP)
      (tagP (bs ">")) is8bitmimeP)
    (fun r => Cmd.mail r.1 r.2) buf
  match r1 with
  | some r => some r
  | none =>
      mapP
        (separatedPairP
          (precededP (pairP (cmdP (bs "mail")) (tagNoCaseP (bs "from: <"))) mailPathP)
          (tagP (bs ">")) is8bitmimeP)
        (fun r => Cmd.mail r.1 r.2) buf

/-- `rcpt` from mailin/src/parser.rs: the `TO:<path>` grammar, with the
source's retry branch that accepts a single space after the colon. -/
def rcptP : NomP Cmd := fun buf =>
  let r1 := mapP
    (terminatedP
      (precededP (pairP (cmdP (bs "rcpt")) (tagNoCaseP (bs "to:<"))) mailPathP)
      (tagP (bs ">")))
    Cmd.rcpt buf
  match r1 with
  | some r => some r
  | none =>
      mapP
        (terminatedP
          (precededP (pairP (cmdP (bs "rcpt")) (tagNoCaseP (bs "to: <"))) mailPathP)
          (tagP (bs ">")))
        Cmd.rcpt buf

/-- `data` from mailin/src/parser.rs. -/
def dataP : NomP Cmd := valueP Cmd.data (tagNoCaseP (bs "data"))

/-- `rset` from mailin/src/parser.rs. -/
def rsetP : NomP Cmd := valueP Cmd.rset (tagNoCaseP (bs "rset"))

/-- `quit` from mailin/src/parser.rs. -/
def quitP : NomP Cmd := valueP Cmd.quit (tagNoCaseP (bs "quit"))

/-- `vrfy` from mailin/src/parser.rs. -/
def vrfyP : NomP Cmd := valueP Cmd.vrfy (precededP (cmdP (bs "vrfy")) takeAllP)

/-- `noop` from mailin/src/parser.rs. -/
def noopP : NomP Cmd := valueP Cmd.noop (tagNoCaseP (bs "noop"))

/-- `starttls` from mailin/src/parser.rs. -/
def starttlsP : NomP Cmd := valueP Cmd.startTls (tagNoCaseP (bs "starttls"))

/-- `is_base64` from mailin/src/parser.rs. -/
def isBase64Byte (c : Nat) : Bool :=
  (48 ≤ c && c ≤ 57) || (65 ≤ c && c ≤ 90) || (97 ≤ c && c ≤ 122) ||
    c = 43 || c = 47 || c = 61

/-- `auth_initial` from mailin/src/parser.rs. -/
def authInitialP : NomP Bytes := precededP spaceP (takeWhile1P isBase64Byte)

/-- `auth_response` from mailin/src/parser.rs. -/
def authResponseP : NomP Bytes := terminatedP (takeWhile1P isBase64Byte) (tagP (bs "\r\n"))

/-- `empty` from mailin/src/parser.rs. -/
def emptyP : NomP Bytes := fun buf => some (buf, [])

/-- `sasl_plain_cmd` from mailin/src/parser.rs. -/
def saslPlainCmd (param : Bytes) : Cmd :=
  if param.isEmpty then Cmd.authPlainEmpty
  else
    let creds := decodeSaslPlain param
    Cmd.authPlain creds.authorizationId creds.authenticationId creds.password

/-- `decode_sasl_login` from mailin/src/parser.rs. -/
def decodeSaslLogin (param : Bytes) : Bytes :=
  match base64Decode param with
  | some bytes => if utf8Valid bytes then bytes else []
  | none => []

/-- `sasl_login_cmd` from mailin/src/parser.rs. -/
def saslLoginCmd (param : Bytes) : Cmd :=
  if param.isEmpty then Cmd.authLoginEmpty
  else Cmd.authLogin (decodeSaslLogin param)

/-- `auth_plain` from mailin/src/parser.rs. -/
def authPlainP : NomP Cmd :=
  mapP (precededP (tagNoCaseP (bs "plain")) (altP [authInitialP, emptyP])) saslPlainCmd

/-- `auth_login` from mailin/src/parser.rs. -/
def authLoginP : NomP Cmd :=
  mapP (precededP (tagNoCaseP (bs "login")) (altP [authInitialP, emptyP])) saslLoginCmd

/-- `auth` from mailin/src/parser.rs. -/
def authP : NomP Cmd := precededP (cmdP (bs "auth")) (altP [authPlainP, authLoginP])

/-- `command` from mailin/src/parser.rs: one of the verbs, then CRLF. -/
def commandP : NomP Cmd :=
  terminatedP
    (altP [heloP, ehloP, mailP, rcptP, dataP, rsetP, quitP, vrfyP, noopP, starttlsP, authP])
    (tagP (bs "\r\n"))

/-- `parse` from mailin/src/parser.rs: parse failures map to the syntax error
response (the complete combinators never yield Incomplete). -/
def parse (line : Bytes) : Except Response Cmd :=
  match commandP line with
  | some (_, cmd) => .ok cmd
  | none => .error SYNTAX_ERROR

end Mailin

namespace Mailin

--------------------------------------------------------------------------------
-- Line processing and session facade (mailin/src/fsm.rs, mailin/src/smtp.rs)
--------------------------------------------------------------------------------

/-- The `State::process_line` implementations of mailin/src/fsm.rs: the Data
state writes body lines to its sink (so the state itself can change), the Auth
state wraps the line as an auth response, every other state parses it. -/
def SmtpState.processLineS : SmtpState → Bytes → (Cmd ⊕ Response) × SmtpState
  | .data domain writer, line =>
      if line = bs "." then (.inl .dataEnd, .data domain writer)
      else
        let (okW, w') := writer.writeAll line
        if okW then (.inr EMPTY_RESPONSE, .data domain w')
        else (.inr TRANSACTION_FAILED, .data domain w')
  | .auth domain mechanism, line => (.inl (.authResponse line), .auth domain mechanism)
  | s, line =>
      (match parse line with
       | .ok cmd => .inl cmd
       | .error res => .inr res, s)

/-- `StateMachine::process_line` from mailin/src/fsm.rs. -/
def StateMachine.processLine (m : StateMachine) (line : Bytes) :
    (Cmd ⊕ Response) × StateMachine :=
  match m.smtp with
  | some s =>
      let (r, s') := s.processLineS line
      (r, { m with smtp := some s' })
  | none => (.inr INVALID_STATE, m)

/-- `SessionBuilder` from mailin/src/smtp.rs. -/
structure SessionBuilder where
  name : String
  startTlsExtension : Bool
  authMechanisms : List AuthMechanism

/-- `SessionBuilder::new` from mailin/src/smtp.rs. -/
def SessionBuilder.new (name : String) : SessionBuilder :=
  { name := name, startTlsExtension := false, authMechanisms := [] }

/-- `SessionBuilder::enable_start_tls` from mailin/src/smtp.rs. -/
def SessionBuilder.enableStartTls (b : SessionBuilder) : SessionBuilder :=
  { b with startTlsExtension := true }

/-- `SessionBuilder::enable_auth` from mailin/src/smtp.rs. -/
def SessionBuilder.enableAuth (b : SessionBuilder) (auth : AuthMechanism) :
    SessionBuilder :=
  { b with authMechanisms := b.authMechanisms ++ [auth] }

/-- `Session` from mailin/src/smtp.rs. -/
structure Session where
  name : String
  handler : Handler
  fsm : StateMachine
  startTlsExtension : Bool
  authMechanisms : List AuthMechanism

/-- `SessionBuilder::build` from mailin/src/smtp.rs. -/
def SessionBuilder.build (b : SessionBuilder) (remote : IpAddr) (h : Handler) :
    Session :=
  { name := b.name
    handler := h
    fsm := StateMachine.new remote b.authMechanisms b.startTlsExtension
    startTlsExtension := b.startTlsExtension
    authMechanisms := b.authMechanisms }

/-- `Session::greeting` from mailin/src/smtp.rs. -/
def Session.greeting (s : Session) : Response :=
  Response.dynamic 220 (s.name ++ " ESMTP") []

/-- `Session::ehlo_response` from mailin/src/smtp.rs: 8BITMIME first, then
either STARTTLS or the configured auth mechanisms. -/
def Session.ehloResponse (s : Session) : Response :=
  let extensions :=
    ["8BITMIME"] ++
      (if s.startTlsExtension then ["STARTTLS"]
       else s.authMechanisms.map AuthMechanism.extension)
  Response.dynamic 250 (s.name ++ " offers extensions:") extensions

/-- `Session::fill_response` from mailin/src/smtp.rs. -/
def Session.fillResponse (s : Session) (res : Response) : Response :=
  if res.ehloOk then s.ehloResponse else res

/-- `Session::command` from mailin/src/smtp.rs. -/
def Session.commandS (s : Session) (cmd : Cmd) : Response × Session :=
  let (res, fsm') := s.fsm.command s.handler cmd
  (res, { s with fsm := fsm' })

/-- `Session::process` from mailin/src/smtp.rs. -/
def Session.process (s : Session) (line : Bytes) : Response × Session :=
  match s.fsm.processLine line with
  | (.inl cmd, fsm1) =>
      let s1 : Session := { s with fsm := fsm1 }
      let (res, s2) := s1.commandS cmd
      (s2.fillResponse res, s2)
  | (.inr res, fsm1) => (res, { s with fsm := fsm1 })

/-- `Session::tls_active` from mailin/src/smtp.rs: clear the STARTTLS flag and
feed the synthetic StartedTls command. -/
def Session.tlsActive (s : Session) : Session :=
  let s1 : Session := { s with startTlsExtension := false }
  (s1.commandS .startedTls).2

/-- Run a session over a list of input lines, collecting the responses. -/
def runSession (s : Session) (lines : List Bytes) : List Response × Session :=
  match lines with
  | [] => ([], s)
  | line :: rest =>
      let (res, s') := s.process line
      let (rs, s'') := runSession s' rest
      (res :: rs, s'')

end Mailin

namespace Mxdns

open Mailin (Bytes)

/-- IPv4 address (mxdns works on `Ipv4Addr`). -/
structure Ipv4 where
  o0 : Nat
  o1 : Nat
  o2 : Nat
  o3 : Nat
deriving DecidableEq, Repr

/-- DNS resource record data, the `RData` cases mxdns/src/lib.rs inspects. -/
inductive RData where
  | a (ip : Ipv4)
  | ptr (name : String)
  | ns (name : String)
  | other
deriving DecidableEq, Repr

/-- Record types queried by mxdns/src/lib.rs. -/
inductive QType where
  | a
  | ptr
  | ns
deriving DecidableEq, Repr

/-- A DNS oracle: the answer section (or error) each query would get. This
stands for the network interaction of `client.query` in mxdns/src/lib.rs. -/
structure DnsOracle where
  query : String → QType → Except String (List RData)

/-- `format_ipv4` from mxdns/src/lib.rs: reversed octets and a zone suffix. -/
def formatIpv4 (ip : Ipv4) (zone : String) : String :=
  toString ip.o3 ++ "." ++ toString ip.o2 ++ "." ++ toString ip.o1 ++ "." ++
    toString ip.o0 ++ "." ++ zone

/-- `lookup_ip` from mxdns/src/lib.rs: query A records and keep the first
answer when it is an A record. -/
def lookupIp (o : DnsOracle) (fqdn : String) : Except String (Option Ipv4) :=
  match o.query fqdn .a with
  | .error e => .error e
  | .ok answers =>
      .ok (match answers.head? with
        | some (.a ip) => some ip
        | _ => none)

/-- `lookup_ptr` from mxdns/src/lib.rs: query PTR records and keep the first
answer when it is a PTR record. -/
def lookupPtr (o : DnsOracle) (fqdn : String) : Except String (Option String) :=
  match o.query fqdn .ptr with
  | .error e => .error e
  | .ok answers =>
      .ok (match answers.head? with
        | some (.ptr name) => some name
        | _ => none)

/-- `MxDns::reverse_dns` from mxdns/src/lib.rs: PTR lookup of the reversed
address under in-addr.arpa. -/
def reverseDns (o : DnsOracle) (ip : Ipv4) : Except String (Option String) :=
  lookupPtr o (formatIpv4 ip "in-addr.arpa")

/-- `FCrDNS` from mxdns/src/lib.rs. -/
inductive FCrDNS where
  | noReverse
  | unConfirmed (name : String)
  | confirmed (name : String)
deriving DecidableEq, Repr

/-- `MxDns::fcrdns` from mxdns/src/lib.rs: reverse lookup, then forward
lookup of the name, confirmed only when the forward result equals the
original address. -/
def fcrdns (o : DnsOracle) (ip : Ipv4) : Except String FCrDNS :=
  match reverseDns o ip with
  | .error e => .error e
  | .ok none => .ok .noReverse
  | .ok (some fqdn) =>
      match lookupIp o fqdn with
      | .error e => .error e
      | .ok maybeIp =>
          if maybeIp = some ip then .ok (.confirmed fqdn)
          else .ok (.unConfirmed fqdn)

/-- `MxDns::is_blocked` from mxdns/src/lib.rs, applied to the per-blocklist
outcomes delivered by `on_blocklists`: false for no blocklists, the last
error if every lookup failed, otherwise true iff some lookup succeeded with
true (errors count as not listed). -/
def isBlocked (results : List (Except String Bool)) : Except String Bool :=
  if results.isEmpty then .ok false
  else if results.all (fun r => match r with | .error _ => true | .ok _ => false) then
    (results.getLast?).getD (.error "Failed to pop a non-empty error iterator")
  else
    .ok (results.any (fun r => match r with | .ok b => b | .error _ => false))

end Mxdns

namespace MimeEvent

open Mailin (Bytes bs NomP lowerByte utf8Valid tagP tagNoCaseP takeWhile1P isNotP
  precededP terminatedP pairP mapP valueP altP)

--------------------------------------------------------------------------------
-- Headers and MIME types (mime-event/src/header.rs, mime-event/src/event.rs)
--------------------------------------------------------------------------------

/-- Association list standing for the `HashMap` of header parameters; insert
replaces an existing binding. -/
abbrev AssocMap := List (Bytes × Bytes)

/-- `HashMap::insert`. -/
def AssocMap.insertKV (m : AssocMap) (k v : Bytes) : AssocMap :=
  if m.any (fun p => p.1 = k) then m.map (fun p => if p.1 = k then (k, v) else p)
  else m ++ [(k, v)]

/-- `HashMap::get`. -/
def AssocMap.getKV (m : AssocMap) (k : Bytes) : Option Bytes :=
  (m.find? (fun p => p.1 = k)).map (fun p => p.2)

/-- `Header` from mime-event/src/header.rs. -/
inductive Header where
  | unstructured (key value : Bytes)
  | contentType (mime : Bytes) (parameters : AssocMap)
  | fromH (value : Bytes)
  | toH (value : Bytes)
  | date (value : Bytes)
  | contentDisposition (dispositionType : Bytes) (parameters : AssocMap)
  | contentDescription (value : Bytes)
  | subject (value : Bytes)
  | sender (value : Bytes)
  | replyTo (value : Bytes)
  | messageId (value : Bytes)
  | End
deriving DecidableEq, Repr

/-- `Multipart` from mime-event/src/event.rs. -/
inductive Multipart where
  | alternative
  | mixed
  | digest
deriving DecidableEq, Repr

/-- `Mime` from mime-event/src/event.rs. -/
inductive Mime where
  | multipart (m : Multipart)
  | type (t : Bytes)
deriving DecidableEq, Repr

/-- `mime_type` from mime-event/src/event.rs, with ASCII case folding
standing in for `str::to_lowercase`. -/
def mimeType (v : Bytes) : Mime :=
  if utf8Valid v then
    let s := v.map lowerByte
    if s = bs "multipart/alternative" then .multipart .alternative
    else if s = bs "multipart/mixed" then .multipart .mixed
    else if s = bs "multipart/digest" then .multipart .digest
    else .type v
  else .type v

/-- `Event` from mime-event/src/event.rs. -/
inductive Event where
  | start
  | header (h : Header)
  | multipartStart (m : Multipart)
  | partStart (offset : Nat)
  | bodyStart (offset : Nat)
  | body (block : Bytes)
  | partEnd (offset : Nat)
  | multipartEnd
  | End
deriving DecidableEq, Repr

--------------------------------------------------------------------------------
-- Header line parsing (mime-event/src/line_parser.rs)
--------------------------------------------------------------------------------

/-- `ctl` from mime-event/src/line_parser.rs. -/
def ctl (c : Nat) : Bool := c = 13 || c = 10

/-- `tspecial` from mime-event/src/line_parser.rs. -/
def tspecial (c : Nat) : Bool :=
  c = 40 || c = 41 || c = 60 || c = 62 || c = 64 || c = 44 || c = 59 || c = 58 ||
    c = 92 || c = 34 || c = 47 || c = 91 || c = 93 || c = 63 || c = 61

/-- `space` from mime-event/src/line_parser.rs. -/
def spaceLP : NomP Bytes := takeWhile1P (fun c => c = 32)

/-- `colon_space` from mime-event/src/line_parser.rs. -/
def colonSpace : NomP Bytes := mapP (pairP (tagP (bs ":")) spaceLP) (fun r => r.1 ++ r.2)

/-- `match_header_key` from mime-event/src/line_parser.rs. -/
def matchHeaderKey (header : Bytes) : NomP Bytes := terminatedP (tagNoCaseP header) colonSpace

/-- `header_value_with_parameters` from mime-event/src/line_parser.rs. -/
def headerValueWithParameters : NomP Bytes := isNotP (bs ";\r\n")

/-- `token` from mime-event/src/line_parser.rs. -/
def tokenLP : NomP Bytes := takeWhile1P (fun c => c ≠ 32 && !tspecial c && !ctl c)

/-- `in_quotes` from mime-event/src/line_parser.rs: consume up to an unescaped
quote, dropping backslashes; a trailing lone backslash indexes past the buffer
in the source and is modelled as failure. -/
def inQuotes : Bytes → Option (Bytes × Bytes)
  | [] => some ([], [])
  | b :: rest =>
      if b = 34 then some (b :: rest, [])
      else if b = 92 then
        match rest with
        | [] => none
        | c :: rest' =>
            match inQuotes rest' with
            | some (rem, v) => some (rem, c :: v)
            | none => none
      else
        match inQuotes rest with
        | some (rem, v) => some (rem, b :: v)
        | none => none

/-- `quoted_string` from mime-event/src/line_parser.rs. -/
def quotedString : NomP Bytes := terminatedP (precededP (tagP (bs "\"")) inQuotes) (tagP (bs "\""))

/-- `parameter_value` from mime-event/src/line_parser.rs. -/
def parameterValue : NomP Bytes := altP [tokenLP, quotedString]

/-- `parameter` from mime-event/src/line_parser.rs. -/
def parameterLP : NomP (Bytes × Bytes) := fun buf =>
  match precededP (pairP (tagP (bs ";")) spaceLP) tokenLP buf with
  | none => none
  | some (i, attrName) =>
      match precededP (tagP (bs "=")) parameterValue i with
      | none => none
      | some (i', value) => some (i', (attrName, value))

/-- Fuelled loop behind `fold_many0(parameter, ...)`; each parameter consumes
at least one byte so input length bounds the iteration count. -/
def parametersGo (fuel : Nat) (acc : AssocMap) : NomP AssocMap := fun buf =>
  match fuel with
  | 0 => some (buf, acc)
  | fuel' + 1 =>
      match parameterLP buf with
      | some (rest, kv) => parametersGo fuel' (acc.insertKV kv.1 kv.2) rest
      | none => some (buf, acc)

/-- `parameters` from mime-event/src/line_parser.rs. -/
def parametersLP : NomP AssocMap := fun buf => parametersGo (buf.length + 1) [] buf

/-- `header_with_params` from mime-event/src/line_parser.rs. -/
def headerWithParams (header : Bytes) : NomP (Bytes × AssocMap) := fun buf =>
  match precededP (matchHeaderKey header) headerValueWithParameters buf with
  | none => none
  | some (i, value) =>
      match terminatedP parametersLP (tagP (bs "\r\n")) i with
      | none => none
      | some (i', params) => some (i', (value, params))

/-- `unstructured_value` from mime-event/src/line_parser.rs. -/
def unstructuredValue : NomP Bytes := isNotP (bs "\r\n")

/-- `match_unstructured` from mime-event/src/line_parser.rs. -/
def matchUnstructured (header : Bytes) : NomP Bytes :=
  terminatedP (precededP (matchHeaderKey header) unstructuredValue) (tagP (bs "\r\n"))

/-- `header_key` from mime-event/src/line_parser.rs. -/
def headerKey : NomP Bytes := takeWhile1P (fun c => c ≠ 58 && c ≠ 32)

/-- `unstructured` from mime-event/src/line_parser.rs. -/
def unstructuredLP : NomP Header := fun buf =>
  match terminatedP headerKey colonSpace buf with
  | none => none
  | some (i, key) =>
      match terminatedP unstructuredValue (tagP (bs "\r\n")) i with
      | none => none
      | some (i', value) => some (i', .unstructured key value)

/-- `header_end` from mime-event/src/line_parser.rs. -/
def headerEndLP : NomP Header := mapP (tagP (bs "\r\n")) (fun _ => Header.End)

/-- `content` from mime-event/src/line_parser.rs. -/
def contentLP : NomP Header :=
  mapP (headerWithParams (bs "Content-Type")) (fun v => .contentType v.1 v.2)

/-- `content_disposition` from mime-event/src/line_parser.rs. -/
def contentDispositionLP : NomP Header :=
  mapP (headerWithParams (bs "Content-Disposition")) (fun v => .contentDisposition v.1 v.2)

/-- The typed unstructured headers of mime-event/src/line_parser.rs. -/
def fromLP : NomP Header := mapP (matchUnstructured (bs "From")) Header.fromH
def toLP : NomP Header := mapP (matchUnstructured (bs "To")) Header.toH
def subjectLP : NomP Header := mapP (matchUnstructured (bs "Subject")) Header.subject
def senderLP : NomP Header := mapP (matchUnstructured (bs "Sender")) Header.sender
def replyToLP : NomP Header := mapP (matchUnstructured (bs "Reply-To")) Header.replyTo
def messageIdLP : NomP Header := mapP (matchUnstructured (bs "Message-ID")) Header.messageId
def dateLP : NomP Header := mapP (matchUnstructured (bs "Date")) Header.date
def contentDescriptionLP : NomP Header :=
  mapP (matchUnstructured (bs "Content-Description")) Header.contentDescription

/-- `header` from mime-event/src/line_parser.rs: try each alternative; a
line matching none of them is an error. -/
def headerLine (line : Bytes) : Option Header :=
  match altP [headerEndLP, contentLP, fromLP, toLP, subjectLP, senderLP, replyToLP,
      messageIdLP, dateLP, contentDispositionLP, contentDescriptionLP, unstructuredLP] line with
  | some (_, h) => some h
  | none => none

end MimeEvent

namespace MimeEvent

open Mailin (Bytes bs)

--------------------------------------------------------------------------------
-- Header folding buffer (mime-event/src/header_buffer.rs)
--------------------------------------------------------------------------------

/-- `HeaderBuffer` from mime-event/src/header_buffer.rs. -/
structure HeaderBuffer where
  hasValue : Bool
  length : Nat
  line : Bytes
deriving DecidableEq, Repr

/-- The default (empty) header buffer. -/
def HeaderBuffer.init : HeaderBuffer := { hasValue := false, length := 0, line := [] }

/-- `HeaderBuffer::next_line` from mime-event/src/header_buffer.rs: buffer the
incoming line, concatenating continuation lines, and hand back the previous
complete logical line when a fresh one begins. -/
def HeaderBuffer.nextLine (hb : HeaderBuffer) (line : Bytes) :
    Option (Bytes × Nat) × HeaderBuffer :=
  if !hb.hasValue then
    (none, { hasValue := true, length := line.length, line := line })
  else if line.head? = some 32 then
    let folded := hb.line.take (hb.line.length - 2) ++ line
    (none, { hb with line := folded, length := hb.length + line.length })
  else
    (some (hb.line, hb.length), { hb with line := line, length := line.length })

/-- `HeaderBuffer::take` from mime-event/src/header_buffer.rs. -/
def HeaderBuffer.takeBuf (hb : HeaderBuffer) : Option (Bytes × Nat) × HeaderBuffer :=
  if hb.hasValue then
    (some (hb.line, hb.length), { hasValue := false, length := 0, line := [] })
  else (none, hb)

--------------------------------------------------------------------------------
-- The streaming event parser (mime-event/src/parser.rs)
--------------------------------------------------------------------------------

/-- `State` from mime-event/src/parser.rs. -/
inductive PState where
  | start
  | header
  | multipartHeader
  | multipartPreamble
  | partStart
  | body
deriving DecidableEq, Repr

/-- `MultipartState` from mime-event/src/parser.rs. -/
structure MultipartState where
  contentType : Multipart
  boundary : Bytes
deriving DecidableEq, Repr

/-- `EventParser` from mime-event/src/parser.rs; the inner writer is modelled
as infallible, and emitted events are returned instead of pushed to a
handler. -/
structure EventParser where
  state : PState
  offset : Nat
  contentType : Mime
  boundary : Option Bytes
  multipartStack : List MultipartState
  headerBuffer : HeaderBuffer
deriving DecidableEq, Repr

/-- `EventParser::new` from mime-event/src/parser.rs. -/
def EventParser.new : EventParser :=
  { state := .start
    offset := 0
    contentType := .type (bs "text/plain")
    boundary := none
    multipartStack := []
    headerBuffer := HeaderBuffer.init }

/-- `EventParser::is_open_boundary` from mime-event/src/parser.rs. -/
def EventParser.isOpenBoundary (p : EventParser) (buf : Bytes) : Bool :=
  match p.boundary with
  | some b => b.isPrefixOf buf
  | none => false

/-- `EventParser::is_close_boundary` from mime-event/src/parser.rs. -/
def EventParser.isCloseBoundary (p : EventParser) (buf : Bytes) : Bool :=
  match p.boundary with
  | some b =>
      b.isPrefixOf buf && decide (buf.length > b.length + 2) &&
        (bs "--\r\n").isSuffixOf buf
  | none => false

/-- `EventParser::content_type` from mime-event/src/parser.rs: push the
current multipart frame, switch the content type, and read the boundary
parameter for a multipart type. -/
def EventParser.contentTypeUpd (p : EventParser) (mtype : Bytes) (params : AssocMap) :
    EventParser :=
  let p1 :=
    match p.contentType, p.boundary with
    | .multipart m, some b =>
        { p with multipartStack := p.multipartStack ++ [MultipartState.mk m b] }
    | _, _ => p
  let p2 := { p1 with contentType := mimeType mtype }
  match p2.contentType with
  | .multipart _ =>
      { p2 with boundary := (params.getKV (bs "boundary")).map (fun b => bs "--" ++ b) }
  | _ => p2

/-- `EventParser::header_field` from mime-event/src/parser.rs: returns the
updated parser, the emitted events and the next state. -/
def EventParser.headerField (p : EventParser) (buf : Bytes) (st : PState) :
    Option (EventParser × List Event × PState) :=
  if (bs "\r\n").isPrefixOf buf then
    match st with
    | .multipartHeader => some ({ p with state := .multipartPreamble }, [], .multipartPreamble)
    | _ => some ({ p with state := .body }, [.bodyStart (p.offset + 2)], .body)
  else
    match headerLine buf with
    | none => none
    | some token =>
        let p' :=
          match token with
          | .contentType mtype params => p.contentTypeUpd mtype params
          | _ => p
        let evs := [Event.header token]
        match p'.contentType with
        | .multipart _ => some (p', evs, .multipartHeader)
        | _ => some (p', evs, st)

/-- `EventParser::handle_line` from mime-event/src/parser.rs. -/
def EventParser.handleLine (p : EventParser) (buf : Bytes) (bufLen : Nat) :
    Option (EventParser × List Event) :=
  let step : Option (EventParser × List Event × PState) :=
    match p.state with
    | .start => none
    | .multipartHeader => p.headerField buf .multipartHeader
    | .header => p.headerField buf .header
    | .partStart =>
        match p.headerField buf .header with
        | none => none
        | some (p', evs, st) => some (p', Event.partStart p.offset :: evs, st)
    | .multipartPreamble =>
        if p.isOpenBoundary buf then
          match p.contentType with
          | .multipart m => some (p, [.multipartStart m], .partStart)
          | _ => some (p, [], .partStart)
        else some (p, [], .multipartPreamble)
    | .body =>
        if p.isCloseBoundary buf then
          let evs := [Event.partEnd p.offset, Event.multipartEnd]
          match p.multipartStack.getLast? with
          | some last =>
              some ({ p with contentType := .multipart last.contentType
                             boundary := some last.boundary
                             multipartStack := p.multipartStack.dropLast },
                    evs, .header)
          | none => some (p, evs, .header)
        else if p.isOpenBoundary buf then
          some (p, [.partEnd p.offset], .partStart)
        else some (p, [.body buf], .body)
  match step with
  | none => none
  | some (p', evs, next) =>
      some ({ p' with state := next, offset := p'.offset + bufLen }, evs)

/-- `EventParser::handle_header` from mime-event/src/parser.rs. -/
def EventParser.handleHeader (p : EventParser) (buf : Bytes) :
    Option (EventParser × List Event) :=
  if (bs "\r\n").isPrefixOf buf then
    let (mline, hb') := p.headerBuffer.takeBuf
    let p1 := { p with headerBuffer := hb' }
    match mline with
    | some (line, length) =>
        match p1.handleLine line length with
        | none => none
        | some (p2, evs1) =>
            match p2.handleLine buf buf.length with
            | none => none
            | some (p3, evs2) => some (p3, evs1 ++ evs2)
    | none => p1.handleLine buf buf.length
  else
    let (mline, hb') := p.headerBuffer.nextLine buf
    let p1 := { p with headerBuffer := hb' }
    match mline with
    | some (line, length) => p1.handleLine line length
    | none => some (p1, [])

/-- `EventParser::handle_write` from mime-event/src/parser.rs. -/
def EventParser.handleWrite (p : EventParser) (buf : Bytes) :
    Option (EventParser × List Event) :=
  match p.state with
  | .start =>
      let p1 := { p with state := .header }
      match p1.handleHeader buf with
      | none => none
      | some (p2, evs) => some (p2, Event.start :: evs)
  | .header => p.handleHeader buf
  | .multipartHeader => p.handleHeader buf
  | .partStart => p.handleHeader buf
  | _ => p.handleLine buf buf.length

/-- Feed a list of written chunks through the event parser. -/
def runWrites : EventParser → List Bytes → Option (EventParser × List Event)
  | p, [] => some (p, [])
  | p, buf :: rest =>
      match p.handleWrite buf with
      | none => none
      | some (p', evs) =>
          match runWrites p' rest with
          | none => none
          | some (p'', evs') => some (p'', evs ++ evs')

/-- Parse a whole document: feed every line, then emit the final End event
that `Drop for EventParser` sends. -/
def parseDoc (lines : List Bytes) : Option (List Event) :=
  match runWrites EventParser.new lines with
  | none => none
  | some (_, evs) => some (evs ++ [Event.End])

/-- Number of PartStart events. -/
def countPartStart (evs : List Event) : Nat :=
  evs.countP (fun e => match e with | .partStart _ => true | _ => false)

/-- Number of PartEnd events. -/
def countPartEnd (evs : List Event) : Nat :=
  evs.countP (fun e => match e with | .partEnd _ => true | _ => false)

/-- Number of MultipartStart events. -/
def countMultipartStart (evs : List Event) : Nat :=
  evs.countP (fun e => match e with | .multipartStart _ => true | _ => false)

/-- Number of MultipartEnd events. -/
def countMultipartEnd (evs : List Event) : Nat :=
  evs.countP (fun e => match e with | .multipartEnd => true | _ => false)

end MimeEvent

namespace Mailin

--------------------------------------------------------------------------------
-- Concrete scenarios used by the claims
--------------------------------------------------------------------------------

/-- The sink owned by the Data phase of a session, when the session is in that
phase. -/
def Session.dataSink (s : Session) : Option MWriter :=
  match s.fsm.smtp with
  | some (.data _ w) => some w
  | _ => none

/-- The happy-path input lines of the specification's first end-to-end
scenario. -/
def happyLines : List Bytes :=
  [bs "HELO a.domain\r\n", bs "MAIL FROM:<ship@sea.com>\r\n",
   bs "RCPT TO:<fish@sea.com>\r\n", bs "DATA\r\n", bs "Hello World\r\n",
   bs ".\r\n", bs "QUIT\r\n"]

/-- A session with no auth mechanisms and no TLS, over the default handler
(whose data callback hands out the recording sink). -/
def happySession : Session :=
  (SessionBuilder.new "some.name").build [127, 0, 0, 1] emptyHandler

/-- A handler whose data callback returns a sink that fails the first two
writes and accepts everything afterwards. -/
def failingHandler : Handler :=
  { emptyHandler with data := fun _ _ _ _ => .ok { acc := [], plan := [false, false] } }

/-- A session over the failing-sink handler. -/
def failingSession : Session :=
  (SessionBuilder.new "some.name").build [127, 0, 0, 1] failingHandler

/-- Input lines driving the failing-sink session into the Data phase and
through two body lines and the terminator. -/
def failingLines : List Bytes :=
  [bs "helo a.domain\r\n", bs "mail from:<ship@sea.com>\r\n",
   bs "rcpt to:<fish@sea.com>\r\n", bs "data\r\n", bs "X\r\n", bs "Y\r\n", bs "."]

/-- A session configured with PLAIN authentication but without STARTTLS. -/
def authNoTlsSession : Session :=
  ((SessionBuilder.new "some.domain").enableAuth .plain).build [127, 0, 0, 1] emptyHandler

/-- The extension lines of a response (the tail of a dynamic message). -/
def Response.tailExtensions (r : Response) : List String :=
  match r.message with
  | .dynamic _ tail => tail
  | _ => []

end Mailin

namespace Mxdns

/-- The client address of the concrete FCrDNS scenario. -/
def exIp : Ipv4 := { o0 := 1, o1 := 2, o2 := 3, o3 := 4 }

/-- A different address returned first by the forward lookup. -/
def otherIp : Ipv4 := { o0 := 5, o1 := 6, o2 := 7, o3 := 8 }

/-- An oracle whose PTR answer is mail.example.org. and whose forward A
answers list the original address second. -/
def exOracle : DnsOracle :=
  { query := fun fqdn qt =>
      if qt = .ptr ∧ fqdn = formatIpv4 exIp "in-addr.arpa" then
        .ok [.ptr "mail.example.org."]
      else if qt = .a ∧ fqdn = "mail.example.org." then
        .ok [.a otherIp, .a exIp]
      else .ok [] }

end Mxdns

namespace MimeEvent

open Mailin (Bytes bs)

--------------------------------------------------------------------------------
-- Generator for single-level multipart documents (claim C7)
--------------------------------------------------------------------------------

/-- CRLF. -/
def crlf : Bytes := bs "\r\n"

/-- The canonical name of each multipart kind. -/
def multipartName : Multipart → Bytes
  | .alternative => bs "multipart/alternative"
  | .mixed => bs "multipart/mixed"
  | .digest => bs "multipart/digest"

/-- A Content-Type header line for a simple (non-multipart) type. -/
def ctLine (t : Bytes) : Bytes := bs "Content-Type: " ++ t ++ crlf

/-- The top-level Content-Type header line declaring a multipart type with a
quoted boundary parameter. -/
def topLine (m : Multipart) (b : Bytes) : Bytes :=
  bs "Content-Type: " ++ multipartName m ++ bs "; boundary=\"" ++ b ++ bs "\"" ++ crlf

/-- A part-separating boundary line. -/
def sepLine (b : Bytes) : Bytes := bs "--" ++ b ++ crlf

/-- The closing boundary line. -/
def closeLine (b : Bytes) : Bytes := bs "--" ++ b ++ bs "--" ++ crlf

/-- One part of a single-level multipart document: a declared simple content
type and its body lines. -/
structure SimplePart where
  ctype : Bytes
  bodyLines : List Bytes

/-- The input lines of one part: its Content-Type header, the blank line and
the body lines. -/
def partLines (p : SimplePart) : List Bytes := [ctLine p.ctype, crlf] ++ p.bodyLines

/-- The input lines of a list of parts, separated by boundary lines, the last
followed by the closing boundary. -/
def partsLines (b : Bytes) : List SimplePart → List Bytes
  | [] => []
  | [p] => partLines p ++ [closeLine b]
  | p :: rest => partLines p ++ [sepLine b] ++ partsLines b rest

/-- A full single-level multipart document: top header, blank line, preamble
lines, opening boundary and the parts. -/
def flatDocLines (m : Multipart) (b : Bytes) (preamble : List Bytes)
    (parts : List SimplePart) : List Bytes :=
  [topLine m b, crlf] ++ preamble ++ [sepLine b] ++ partsLines b parts

/-- A boundary parameter usable in a quoted string: no quote, backslash, CR
or LF bytes. -/
def boundaryOk (b : Bytes) : Prop :=
  ∀ c ∈ b, c ≠ 34 ∧ c ≠ 92 ∧ c ≠ 13 ∧ c ≠ 10

/-- A simple content type: nonempty, free of the value terminators, not
starting with a space, and not one of the multipart types. -/
def ctypeOk (t : Bytes) : Prop :=
  t ≠ [] ∧ (∀ c ∈ t, c ≠ 59 ∧ c ≠ 13 ∧ c ≠ 10) ∧ t.head? ≠ some 32 ∧
    mimeType t = .type t

/-- A line that cannot be mistaken for a boundary of b. -/
def notBoundary (b : Bytes) (l : Bytes) : Prop :=
  ¬ (bs "--" ++ b).isPrefixOf l

/-- Well-formedness of one part relative to the boundary. -/
def partOk (b : Bytes) (p : SimplePart) : Prop :=
  ctypeOk p.ctype ∧ ∀ l ∈ p.bodyLines, notBoundary b l

/-- The frame `EventParser::content_type` pushes when a new Content-Type
header arrives: the current multipart type and boundary, when both exist. -/
def pushFrame (ct : Mime) (bd : Option Bytes) : List MultipartState :=
  match ct, bd with
  | .multipart m, some b => [MultipartState.mk m b]
  | _, _ => []

/-- The concrete nested multipart document on which balancing fails: an
alternative multipart inside a mixed multipart. -/
def nestedDocLines : List Bytes :=
  [bs "Content-Type: multipart/mixed; boundary=\"A\"\r\n", crlf,
   bs "--A\r\n",
   bs "Content-Type: multipart/alternative; boundary=\"B\"\r\n", crlf,
   bs "--B\r\n",
   bs "Content-Type: text/plain\r\n", crlf,
   bs "hello\r\n",
   bs "--B--\r\n",
   bs "--A--\r\n"]

end MimeEvent

namespace Mailin

--------------------------------------------------------------------------------
-- Helper lemmas on the response constructors and state transitions
--------------------------------------------------------------------------------

@[simp] theorem fixed_isError (c : Nat) (t : String) :
    (Response.fixed c t).isError = (decide (c < 200) || decide (c ≥ 400)) := rfl

@[simp] theorem fixed_action (c : Nat) (t : String) :
    (Response.fixed c t).action = (if c = 221 ∨ c = 421 then Action.close else Action.reply) := rfl

@[simp] theorem fixed_ehloOk (c : Nat) (t : String) :
    (Response.fixed c t).ehloOk = false := rfl

@[simp] theorem fixedAction_isError (c : Nat) (t : String) (a : Action) :
    (Response.fixedAction c t a).isError = (decide (c < 200) || decide (c ≥ 400)) := rfl

@[simp] theorem fixedAction_action (c : Nat) (t : String) (a : Action) :
    (Response.fixedAction c t a).action = a := rfl

@[simp] theorem emptyResponse_isError : Response.emptyResponse.isError = false := rfl

@[simp] theorem emptyResponse_action : Response.emptyResponse.action = Action.noReply := rfl

@[simp] theorem ehloOkResponse_isError : Response.ehloOkResponse.isError = false := rfl

@[simp] theorem ehloOkResponse_action : Response.ehloOkResponse.action = Action.reply := rfl

theorem authResult_toResponse_action (r : AuthResult) : r.toResponse.action = Action.reply := by
  cases r <;> rfl

theorem heloResult_toResponse_action (r : HeloResult) : r.toResponse.action = Action.reply := by
  cases r <;> rfl

theorem nextStateFrom_fst (c : SmtpState) (r : Response) (f : Unit → SmtpState) :
    (nextStateFrom c r f).1 = r := by
  unfold nextStateFrom; split_ifs <;> rfl

theorem transformState_fst (c : SmtpState) (r : Response) (f : SmtpState → SmtpState) :
    (transformState c r f).1 = r := by
  unfold transformState; split_ifs <;> rfl

theorem nextStateFrom_close (c : SmtpState) (r : Response) (f : Unit → SmtpState)
    (h : r.action = Action.close) : (nextStateFrom c r f).2 = none := by
  unfold nextStateFrom; split_ifs <;> simp_all

theorem transformState_close (c : SmtpState) (r : Response) (f : SmtpState → SmtpState)
    (h : r.action = Action.close) : (transformState c r f).2 = none := by
  unfold transformState; split_ifs <;> simp_all

theorem nextStateFrom_err (c : SmtpState) (r : Response) (f : Unit → SmtpState)
    (he : r.isError = true) (ha : r.action ≠ Action.close) :
    (nextStateFrom c r f).2 = some c := by
  unfold nextStateFrom; split_ifs <;> simp_all

theorem transformState_err (c : SmtpState) (r : Response) (f : SmtpState → SmtpState)
    (he : r.isError = true) (ha : r.action ≠ Action.close) :
    (transformState c r f).2 = some c := by
  unfold transformState; split_ifs <;> simp_all

end Mailin

namespace Mailin

--------------------------------------------------------------------------------
-- Claim C1
--------------------------------------------------------------------------------

/-- C1: evaluating the happy-path scenario (HELO, MAIL, RCPT, DATA, body,
dot, QUIT) on the code refutes the claimed responses: the engine only treats
a bare `.` (without CRLF) as the terminator, so the `.\r\n` line and the
following `QUIT\r\n` line are written into the sink and answered with the
empty NoReply response instead of 250 and 221 Close, and the sink ends up
with `Hello World\r\n.\r\nQUIT\r\n` instead of exactly `Hello World\r\n`. -/
theorem c1_dot_crlf_not_terminator :
    (runSession happySession happyLines).1.map (fun r => (r.code, r.action)) =
      [(250, .reply), (250, .reply), (250, .reply), (354, .reply),
       (0, .noReply), (0, .noReply), (0, .noReply)] ∧
    (runSession happySession happyLines).2.dataSink =
      some { acc := bs "Hello World\r\n.\r\nQUIT\r\n", plan := [] } := by
  exact ⟨rfl, rfl⟩

--------------------------------------------------------------------------------
-- Claim C2
--------------------------------------------------------------------------------

/-- C2 counterexample: a Data-phase body line `..X\r\n` is written to the
sink unchanged, not with its leading dot removed. -/
theorem c2_no_dot_unstuffing :
    (SmtpState.processLineS (.data (bs "a.domain") sinkWriter) (bs "..X\r\n")).2 =
      SmtpState.data (bs "a.domain") { acc := bs "..X\r\n", plan := [] } ∧
    bs "..X\r\n" ≠ bs ".X\r\n" := by
  exact ⟨rfl, by decide⟩

/-- C2 amended: body lines are written to the sink verbatim, with no
reverse dot-stuffing; only a line that is exactly `.` (with no CRLF) ends
the message. -/
theorem c2_body_lines_verbatim (domain : Bytes) (w : MWriter) (line : Bytes)
    (hplan : w.plan = []) :
    SmtpState.processLineS (.data domain w) (bs ".") = (.inl .dataEnd, .data domain w) ∧
    (line ≠ bs "." →
      SmtpState.processLineS (.data domain w) line =
        (.inr EMPTY_RESPONSE, .data domain { acc := w.acc ++ line, plan := [] })) := by
  constructor
  · simp [SmtpState.processLineS]
  · intro hne
    obtain ⟨acc, plan⟩ := w
    subst hplan
    simp [SmtpState.processLineS, hne, MWriter.writeAll]

/-- C2 witness: the amended statement evaluated on the `..X\r\n` line. -/
theorem c2_body_lines_verbatim_witness :
    SmtpState.processLineS (.data (bs "a.domain") sinkWriter) (bs "..X\r\n") =
      (.inr EMPTY_RESPONSE, .data (bs "a.domain") { acc := [] ++ bs "..X\r\n", plan := [] }) :=
  (c2_body_lines_verbatim (bs "a.domain") sinkWriter (bs "..X\r\n") rfl).2 (by decide)

--------------------------------------------------------------------------------
-- Claim C3
--------------------------------------------------------------------------------

/-- C3 counterexample: with a sink that fails its first two writes, each
failing body line is answered immediately with a 554 reply (not silently
discarded), and the terminating `.` is answered with 250 OK (not 554) while
the phase does return to Hello. -/
theorem c3_write_error_replies_immediately :
    (runSession failingSession failingLines).1.map (fun r => (r.code, r.isError, r.action)) =
      [(250, false, .reply), (250, false, .reply), (250, false, .reply), (354, false, .reply),
       (554, true, .reply), (554, true, .reply), (250, false, .reply)] ∧
    (runSession failingSession failingLines).2.fsm.smtp = some (.hello (bs "a.domain")) := by
  exact ⟨rfl, rfl⟩

/-- C3 amended: a body line whose sink write fails is answered at once with
554 Transaction Failed and the session stays in the Data phase (no error is
remembered), and the terminating `.` always yields 250 OK and returns the
phase to Hello. -/
theorem c3_write_error_immediate_554 (domain : Bytes) (w : MWriter) (line : Bytes)
    (hne : line ≠ bs ".") (hfail : (w.writeAll line).1 = false) :
    SmtpState.processLineS (.data domain w) line =
      (.inr TRANSACTION_FAILED, .data domain (w.writeAll line).2) ∧
    (∀ (m : StateMachine) (h : Handler), m.smtp = some (.data domain w) →
      m.command h .dataEnd = (OK, { m with smtp := some (.hello domain) })) := by
  constructor
  · obtain ⟨acc, plan⟩ := w
    match plan, hfail with
    | [], hf => exact absurd hf (by simp [MWriter.writeAll])
    | true :: rest, hf => exact absurd hf (by simp [MWriter.writeAll])
    | false :: rest, _ =>
        simp [SmtpState.processLineS, hne, MWriter.writeAll]
  · intro m h hm
    simp [StateMachine.command, hm, handleState]

/-- C3 witness: the amended statement evaluated on a sink whose first write
fails. -/
theorem c3_write_error_immediate_554_witness :
    SmtpState.processLineS (.data (bs "a.domain") { acc := [], plan := [false] }) (bs "X\r\n") =
      (.inr TRANSACTION_FAILED,
        .data (bs "a.domain")
          ((MWriter.writeAll { acc := [], plan := [false] } (bs "X\r\n")).2)) :=
  (c3_write_error_immediate_554 (bs "a.domain") { acc := [], plan := [false] }
    (bs "X\r\n") (by decide) rfl).1

end Mailin

namespace Mailin

--------------------------------------------------------------------------------
-- Claim C4
--------------------------------------------------------------------------------

/-- C4 counterexample: in the RequiresAuth posture (reached by EHLO on a
session with an auth mechanism), NOOP is rejected with 503 Bad Sequence, so
NOOP is not among the unblocked verbs. -/
theorem c4_noop_blocked_under_requires_auth :
    (runSession authNoTlsSession [bs "ehlo a.domain\r\n", bs "noop\r\n"]).1.map
      (fun r => (r.code, r.isError)) = [(250, false), (503, true)] := rfl

/-- C4 amended: RequiresAuth is the initial posture iff at least one auth
mechanism is declared, and in the RequiresAuth HelloAuth phase every command
other than STARTTLS, AUTH PLAIN (with or without initial response), RSET,
QUIT and a repeated EHLO is rejected with an error response; in particular
NOOP is blocked. -/
theorem c4_requires_auth_gating (m : StateMachine) (h : Handler) (domain : Bytes)
    (cmd : Cmd) (hm : m.smtp = some (.helloAuth domain)) (hauth : m.auth = .requiresAuth)
    (h1 : cmd ≠ .startTls) (h2 : ∀ a b p, cmd ≠ .authPlain a b p)
    (h3 : cmd ≠ .authPlainEmpty) (h4 : cmd ≠ .rset) (h5 : cmd ≠ .quit)
    (h6 : ∀ d, cmd ≠ .ehlo d) :
    (m.command h cmd).1.isError = true ∧
    (∀ (ip : IpAddr) (mechs : List AuthMechanism) (tls : Bool),
      ((StateMachine.new ip mechs tls).auth = .requiresAuth ↔ mechs ≠ [])) := by
  constructor
  · cases cmd with
    | startTls => exact absurd rfl h1
    | authPlain a b p => exact absurd rfl (h2 a b p)
    | authPlainEmpty => exact absurd rfl h3
    | rset => exact absurd rfl h4
    | quit => exact absurd rfl h5
    | ehlo d => exact absurd rfl (h6 d)
    | helo d =>
        simp [StateMachine.command, hm, handleState, defaultHandler, handleHelo, hauth,
          BAD_HELLO]
    | _ =>
        simp [StateMachine.command, hm, handleState, defaultHandler, unhandled,
          BAD_SEQUENCE_COMMANDS]
  · intro ip mechs tls
    cases mechs <;> simp [StateMachine.new]

/-- C4 witness: the gating applied to NOOP on a concrete RequiresAuth
machine. -/
theorem c4_requires_auth_gating_witness :
    ((StateMachine.mk [127, 0, 0, 1] .requiresAuth .unavailable
        (some (.helloAuth (bs "a.domain"))) true).command emptyHandler .noop).1.isError =
      true :=
  (c4_requires_auth_gating _ emptyHandler (bs "a.domain") .noop rfl rfl
    (by intro hh; cases hh) (by intro a b p hh; cases hh) (by intro hh; cases hh)
    (by intro hh; cases hh) (by intro hh; cases hh) (by intro d hh; cases hh)).1

--------------------------------------------------------------------------------
-- Claim C5
--------------------------------------------------------------------------------

/-- C5 counterexample: a session configured with PLAIN auth but no TLS
support advertises AUTH PLAIN in its EHLO response while its TLS posture is
Unavailable, i.e. on a plaintext channel. -/
theorem c5_auth_advertised_without_tls :
    (runSession authNoTlsSession [bs "ehlo a.domain\r\n"]).1.map Response.tailExtensions =
      [["8BITMIME", "AUTH PLAIN"]] ∧
    (runSession authNoTlsSession [bs "ehlo a.domain\r\n"]).2.fsm.tls = .unavailable := by
  exact ⟨rfl, rfl⟩

/-- C5 amended: the EHLO success response is a dynamic multiline response
listing 8BITMIME first and then exactly one of STARTTLS (iff the session's
start-TLS flag is set) or the configured auth mechanisms (iff the flag is
clear), never both; the decision follows the flag, not the TLS posture, so
auth can be advertised on a session that has no TLS at all. -/
theorem startTls_not_mem_ext (l : List AuthMechanism) :
    "STARTTLS" ∉ l.map AuthMechanism.extension := by
  intro hmem
  rcases List.mem_map.mp hmem with ⟨a, _, ha⟩
  cases a
  exact absurd ha (by decide)

theorem authPlain_mem_ext (l : List AuthMechanism) :
    "AUTH PLAIN" ∈ l.map AuthMechanism.extension ↔ AuthMechanism.plain ∈ l := by
  constructor
  · intro hmem
    rcases List.mem_map.mp hmem with ⟨a, hma, _⟩
    cases a
    exact hma
  · intro hp
    exact List.mem_map.mpr ⟨.plain, hp, rfl⟩

theorem c5_ehlo_extensions (s : Session) :
    s.ehloResponse.tailExtensions.head? = some "8BITMIME" ∧
    ("STARTTLS" ∈ s.ehloResponse.tailExtensions ↔ s.startTlsExtension = true) ∧
    ("AUTH PLAIN" ∈ s.ehloResponse.tailExtensions ↔
      (s.startTlsExtension = false ∧ AuthMechanism.plain ∈ s.authMechanisms)) ∧
    ¬("STARTTLS" ∈ s.ehloResponse.tailExtensions ∧
        "AUTH PLAIN" ∈ s.ehloResponse.tailExtensions) ∧
    s.ehloResponse.message =
      .dynamic (s.name ++ " offers extensions:") s.ehloResponse.tailExtensions := by
  cases hst : s.startTlsExtension
  · simp [Session.ehloResponse, Response.tailExtensions, Response.dynamic, hst,
      startTls_not_mem_ext, authPlain_mem_ext, List.mem_map, AuthMechanism.extension]
    exact ⟨fun ⟨a, ha⟩ => by cases a; exact ha, fun hp => ⟨_, hp⟩⟩
  · simp [Session.ehloResponse, Response.tailExtensions, Response.dynamic, hst,
      startTls_not_mem_ext, authPlain_mem_ext, List.mem_map, AuthMechanism.extension]

/-- C5 witness: the extension list of the auth-without-TLS session. -/
theorem c5_ehlo_extensions_witness :
    authNoTlsSession.ehloResponse.tailExtensions.head? = some "8BITMIME" ∧
    ("AUTH PLAIN" ∈ authNoTlsSession.ehloResponse.tailExtensions ↔
      (authNoTlsSession.startTlsExtension = false ∧
        AuthMechanism.plain ∈ authNoTlsSession.authMechanisms)) :=
  ⟨(c5_ehlo_extensions authNoTlsSession).1, (c5_ehlo_extensions authNoTlsSession).2.2.1⟩

end Mailin

namespace Mailin

--------------------------------------------------------------------------------
-- Claim C6
--------------------------------------------------------------------------------

theorem handleRset_fst (m : StateMachine) (d : Bytes) : (handleRset m d).1 = OK := by
  unfold handleRset; cases m.auth <;> rfl

theorem handleHelo_close (c : SmtpState) (m : StateMachine) (h : Handler) (d : Bytes)
    (hc : (handleHelo c m h d).1.action = Action.close) : (handleHelo c m h d).2 = none := by
  unfold handleHelo at hc ⊢
  cases hma : m.auth <;> simp only [hma] at hc ⊢
  · rw [nextStateFrom_fst] at hc
    exact nextStateFrom_close _ _ _ hc
  · simp [BAD_HELLO] at hc
  · simp [BAD_HELLO] at hc

theorem handleEhlo_close (c : SmtpState) (m : StateMachine) (h : Handler) (d : Bytes)
    (hc : (handleEhlo c m h d).1.action = Action.close) : (handleEhlo c m h d).2 = none := by
  unfold handleEhlo at hc ⊢
  cases hma : m.auth <;> simp only [hma] at hc ⊢ <;>
    (rw [nextStateFrom_fst] at hc; exact nextStateFrom_close _ _ _ hc)

theorem defaultHandler_close (c : SmtpState) (m : StateMachine) (h : Handler) (cmd : Cmd)
    (hc : (defaultHandler c m h cmd).1.action = Action.close) :
    (defaultHandler c m h cmd).2 = none := by
  unfold defaultHandler at hc ⊢
  cases cmd <;>
    first
      | rfl
      | exact handleHelo_close _ _ _ _ hc
      | exact handleEhlo_close _ _ _ _ hc
      | simp [unhandled, BAD_SEQUENCE_COMMANDS] at hc

theorem authenticate_fst_action (m : StateMachine) (h : Handler) (a b p : Bytes) :
    (authenticate m h a b p).1.action = Action.reply := by
  unfold authenticate
  exact authResult_toResponse_action _

theorem handleState_close (s : SmtpState) (m : StateMachine) (h : Handler) (cmd : Cmd)
    (hc : (handleState s m h cmd).1.action = Action.close) :
    (handleState s m h cmd).2.2 = none := by
  cases s with
  | auth domain mechanism =>
      cases mechanism
      cases cmd <;> simp only [handleState] at hc ⊢ <;>
        first
          | simp [unhandled, BAD_SEQUENCE_COMMANDS] at hc
          | (rename_i response
             have hact := authenticate_fst_action m h
               (decodeSaslPlain response).authorizationId
               (decodeSaslPlain response).authenticationId
               (decodeSaslPlain response).password
             split at hc <;> simp_all)
  | _ =>
      cases cmd <;> simp only [handleState] at hc ⊢ <;>
        first
          | exact defaultHandler_close _ _ _ _ hc
          | (rw [transformState_fst] at hc; exact transformState_close _ _ _ hc)
          | (rw [handleRset_fst] at hc; simp [OK] at hc)
          | (simp_all [unhandled, BAD_SEQUENCE_COMMANDS, EMPTY_RESPONSE, OK,
              VERIFY_RESPONSE, START_TLS, START_DATA]; done)
          | (split at hc <;>
              first
                | (rw [transformState_fst] at hc; exact transformState_close _ _ _ hc)
                | (simp_all [START_TLS]; done)
                | (rename_i hsp
                   simp only [if_neg hsp] at hc ⊢
                   exact defaultHandler_close _ _ _ _ hc)
                | (rename_i hsp
                   simp only [hsp, if_true] at hc ⊢
                   first
                     | (rw [transformState_fst] at hc; exact transformState_close _ _ _ hc)
                     | simp_all
                     | exact defaultHandler_close _ _ _ _ hc))

/-- C6 counterexample: processing QUIT yields the 221 Close response, yet the
next processed line still produces output: the fixed 421 INVALID_STATE
response, whose message is not empty. -/
theorem c6_output_after_close :
    (runSession happySession [bs "QUIT\r\n", bs "noop\r\n"]).1 = [GOODBYE, INVALID_STATE] ∧
    INVALID_STATE.message ≠ Message.empty ∧ GOODBYE.action = Action.close := by
  refine ⟨rfl, by decide, by decide⟩

/-- C6 amended: a response with action Close does leave the machine in the
terminal state (no SMTP state), but the engine is not silent afterwards:
every line processed on a terminal session is answered with the fixed 421
INVALID_STATE response and the session is left unchanged. -/
theorem c6_close_terminal_then_421 :
    (∀ (m : StateMachine) (h : Handler) (cmd : Cmd),
      (m.command h cmd).1.action = Action.close → (m.command h cmd).2.smtp = none) ∧
    (∀ (s : Session) (line : Bytes), s.fsm.smtp = none →
      s.process line = (INVALID_STATE, s)) := by
  constructor
  · intro m h cmd hclose
    rcases hm : m.smtp with _ | s
    · simp [StateMachine.command, hm]
    · simp only [StateMachine.command, hm] at hclose ⊢
      simp [handleState_close s m h cmd hclose]
  · intro s line hn
    simp [Session.process, StateMachine.processLine, hn]

/-- C6 witness: the amended statement applied to the concrete QUIT command
and to the terminal session it produces. -/
theorem c6_close_terminal_then_421_witness :
    ((happySession.fsm.command emptyHandler .quit).2.smtp = none) ∧
    ((runSession happySession [bs "QUIT\r\n"]).2.process (bs "noop\r\n") =
      (INVALID_STATE, (runSession happySession [bs "QUIT\r\n"]).2)) :=
  ⟨c6_close_terminal_then_421.1 happySession.fsm emptyHandler .quit (by decide),
   c6_close_terminal_then_421.2 (runSession happySession [bs "QUIT\r\n"]).2
     (bs "noop\r\n") (by decide)⟩

end Mailin

namespace Mailin

--------------------------------------------------------------------------------
-- Claim C10
--------------------------------------------------------------------------------

theorem handleHelo_err (c : SmtpState) (m : StateMachine) (h : Handler) (d : Bytes)
    (he : (handleHelo c m h d).1.isError = true)
    (ha : (handleHelo c m h d).1.action ≠ Action.close) : (handleHelo c m h d).2 = some c := by
  unfold handleHelo at he ha ⊢
  cases hma : m.auth <;> simp only [hma] at he ha ⊢
  rw [nextStateFrom_fst] at he ha
  exact nextStateFrom_err _ _ _ he ha

theorem handleEhlo_err (c : SmtpState) (m : StateMachine) (h : Handler) (d : Bytes)
    (he : (handleEhlo c m h d).1.isError = true)
    (ha : (handleEhlo c m h d).1.action ≠ Action.close) : (handleEhlo c m h d).2 = some c := by
  unfold handleEhlo at he ha ⊢
  cases hma : m.auth <;> simp only [hma] at he ha ⊢ <;>
    (rw [nextStateFrom_fst] at he ha; exact nextStateFrom_err _ _ _ he ha)

theorem defaultHandler_err (c : SmtpState) (m : StateMachine) (h : Handler) (cmd : Cmd)
    (he : (defaultHandler c m h cmd).1.isError = true)
    (ha : (defaultHandler c m h cmd).1.action ≠ Action.close) :
    (defaultHandler c m h cmd).2 = some c := by
  unfold defaultHandler at he ha ⊢
  cases cmd <;>
    first
      | rfl
      | exact handleHelo_err _ _ _ _ he ha
      | exact handleEhlo_err _ _ _ _ he ha
      | simp [GOODBYE] at he ha ⊢

/-- C10: in every phase except the Auth challenge phase, a command answered
with an error response whose action is not Close leaves the SMTP state (the
phase together with the accumulated helo domain, reverse path, forward paths
and sink) exactly as it was. -/
theorem c10_error_leaves_state (m : StateMachine) (h : Handler) (cmd : Cmd) (s : SmtpState)
    (hm : m.smtp = some s) (hnotauth : ∀ d mech, s ≠ .auth d mech)
    (he : (m.command h cmd).1.isError = true)
    (ha : (m.command h cmd).1.action ≠ Action.close) :
    (m.command h cmd).2.smtp = some s := by
  simp only [StateMachine.command, hm] at he ha ⊢
  suffices hsuff : (handleState s m h cmd).2.2 = some s by simp [hsuff]
  cases s with
  | auth domain mechanism => exact absurd rfl (hnotauth domain mechanism)
  | _ =>
      cases cmd <;> simp only [handleState] at he ha ⊢ <;>
        first
          | exact defaultHandler_err _ _ _ _ he ha
          | (rw [transformState_fst] at he ha; exact transformState_err _ _ _ he ha)
          | (rw [handleRset_fst] at he; simp [OK] at he)
          | (simp_all [unhandled, BAD_SEQUENCE_COMMANDS, EMPTY_RESPONSE, OK,
              VERIFY_RESPONSE, START_TLS, START_DATA]; done)
          | (split at he <;>
              first
                | (rw [transformState_fst] at he ha; exact transformState_err _ _ _ he ha)
                | (simp_all [START_TLS]; done)
                | (rename_i hsp
                   simp only [if_neg hsp] at he ha ⊢
                   exact defaultHandler_err _ _ _ _ he ha)
                | (rename_i hsp
                   simp only [hsp, if_true] at he ha ⊢
                   first
                     | (rw [transformState_fst] at he ha; exact transformState_err _ _ _ he ha)
                     | (simp_all; done)
                     | exact defaultHandler_err _ _ _ _ he ha))

/-- C10 witness: a DATA command in the Hello phase is a 503 error and leaves
the state at Hello. -/
theorem c10_error_leaves_state_witness :
    ((StateMachine.mk [127, 0, 0, 1] .unavailable .unavailable
        (some (.hello (bs "a.domain"))) false).command emptyHandler .data).2.smtp =
      some (.hello (bs "a.domain")) :=
  c10_error_leaves_state _ emptyHandler .data _ rfl
    (by intro d mech hh; cases hh) (by decide) (by decide)

end Mailin

namespace Mxdns

--------------------------------------------------------------------------------
-- Claim C8
--------------------------------------------------------------------------------

/-- C8 counterexample: one lookup errors and the other reports not-listed;
the overall result is Ok false, not an error. -/
theorem c8_partial_error_not_surfaced :
    isBlocked [.error "timeout", .ok false] = .ok false := rfl

/-- C8 amended: over a non-empty results list, any listed entry makes the
result Ok true; the last error is surfaced only when every lookup errored;
and as soon as one lookup succeeds the result is an Ok value, errors from
the other lookups notwithstanding. -/
theorem c8_blocklist_combination (results : List (Except String Bool))
    (hne : results ≠ []) :
    ((Except.ok true) ∈ results → isBlocked results = .ok true) ∧
    ((∀ r ∈ results, ∃ e, r = Except.error e) →
      ∃ e, results.getLast? = some (.error e) ∧ isBlocked results = .error e) ∧
    ((∃ b, (Except.ok b) ∈ results) → ∃ b, isBlocked results = .ok b) := by
  have hemp : results.isEmpty = false := by
    cases results with
    | nil => exact absurd rfl hne
    | cons a as => rfl
  refine ⟨?_, ?_, ?_⟩
  · intro hmem
    have hnotall :
        ¬ results.all (fun r => match r with | .error _ => true | .ok _ => false) = true := by
      rw [List.all_eq_true]
      intro hall
      have := hall _ hmem
      simp at this
    have hany :
        results.any (fun r => match r with | .ok b => b | .error _ => false) = true := by
      rw [List.any_eq_true]
      exact ⟨.ok true, hmem, rfl⟩
    simp [isBlocked, hemp, hnotall, hany]
  · intro hall
    have hall' :
        results.all (fun r => match r with | .error _ => true | .ok _ => false) = true := by
      rw [List.all_eq_true]
      intro r hr
      obtain ⟨e, he⟩ := hall r hr
      subst he
      rfl
    have hl : results.getLast? = some (results.getLast hne) :=
      List.getLast?_eq_getLast_of_ne_nil hne
    obtain ⟨e, hle⟩ := hall _ (List.getLast_mem hne)
    refine ⟨e, ?_, ?_⟩
    · rw [hl, hle]
    · simp [isBlocked, hemp, hall', hl, hle]
  · rintro ⟨b, hmem⟩
    have hnotall :
        ¬ results.all (fun r => match r with | .error _ => true | .ok _ => false) = true := by
      rw [List.all_eq_true]
      intro hall
      have := hall _ hmem
      simp at this
    exact ⟨results.any (fun r => match r with | .ok b => b | .error _ => false),
      by simp [isBlocked, hemp, hnotall]⟩

/-- C8 witness: the amended combination rules applied to concrete result
lists. -/
theorem c8_blocklist_combination_witness :
    isBlocked [.error "timeout", .ok true] = .ok true ∧
    (∃ e, ([Except.error "a", Except.error "b"] :
        List (Except String Bool)).getLast? = some (.error e) ∧
      isBlocked [.error "a", .error "b"] = .error e) :=
  ⟨(c8_blocklist_combination [.error "timeout", .ok true] (List.cons_ne_nil _ _)).1
      (by simp),
   (c8_blocklist_combination [.error "a", .error "b"] (List.cons_ne_nil _ _)).2.1
      (by
        intro r hr
        rcases List.mem_cons.mp hr with h | h
        · exact ⟨"a", h⟩
        · rcases List.mem_cons.mp h with h2 | h2
          · exact ⟨"b", h2⟩
          · simp at h2)⟩

end Mxdns

namespace Mxdns

--------------------------------------------------------------------------------
-- Claim C9
--------------------------------------------------------------------------------

/-- C9 counterexample: the original address appears among the A answers of
the forward lookup, but not first, and fcrdns reports UnConfirmed. -/
theorem c9_ip_among_answers_unconfirmed :
    fcrdns exOracle exIp = .ok (.unConfirmed "mail.example.org.") ∧
    exOracle.query "mail.example.org." .a = .ok [.a otherIp, .a exIp] ∧
    (RData.a exIp) ∈ [RData.a otherIp, RData.a exIp] := by
  refine ⟨rfl, rfl, by simp⟩

/-- C9 amended: fcrdns returns NoReverse when the PTR lookup has no answer;
otherwise it A-looks-up the returned name and reports Confirmed exactly when
the first answer record of that forward lookup is an A record carrying the
original address, and UnConfirmed otherwise, even when the address appears
later in the answer list. -/
theorem c9_fcrdns_first_answer (o : DnsOracle) (ip : Ipv4) :
    (reverseDns o ip = .ok none → fcrdns o ip = .ok .noReverse) ∧
    (∀ name answers, reverseDns o ip = .ok (some name) →
      o.query name .a = .ok answers →
      fcrdns o ip = .ok
        (if answers.head? = some (.a ip) then .confirmed name
         else .unConfirmed name)) := by
  constructor
  · intro h1
    simp [fcrdns, h1]
  · intro name answers h1 h2
    simp only [fcrdns, h1, lookupIp, h2]
    cases hh : answers.head? with
    | none => simp
    | some rd =>
        cases rd with
        | a ip' =>
            by_cases hip : ip' = ip
            · simp [hip]
            · simp [hip]
        | ptr n => simp
        | ns n => simp
        | other => simp

/-- C9 witness: the amended statement applied to the two-answer oracle. -/
theorem c9_fcrdns_first_answer_witness :
    fcrdns exOracle exIp = .ok
      (if [RData.a otherIp, RData.a exIp].head? = some (.a exIp)
        then FCrDNS.confirmed "mail.example.org."
        else FCrDNS.unConfirmed "mail.example.org.") :=
  (c9_fcrdns_first_answer exOracle exIp).2 "mail.example.org." [.a otherIp, .a exIp] rfl rfl

end Mxdns

namespace Mailin

--------------------------------------------------------------------------------
-- Exact-consumption lemmas for the nom combinator model (used for claim C7)
--------------------------------------------------------------------------------

theorem tagP_exact (t r : Bytes) : tagP t (t ++ r) = some (r, t) := by
  unfold tagP
  rw [if_pos, List.drop_left]
  exact List.isPrefixOf_iff_prefix.mpr (List.prefix_append t r)

theorem tagNoCaseP_exact (t r : Bytes) : tagNoCaseP t (t ++ r) = some (r, t) := by
  unfold tagNoCaseP
  rw [List.take_left, List.drop_left, if_pos]
  exact ⟨rfl, by simp⟩

theorem takeWhile_append_exact (p : Nat → Bool) (t r : Bytes)
    (hall : ∀ c ∈ t, p c = true) (hr : ∀ c, r.head? = some c → p c = false) :
    (t ++ r).takeWhile p = t := by
  induction t with
  | nil =>
      cases r with
      | nil => rfl
      | cons a as => simp [List.takeWhile_cons, hr a rfl]
  | cons a as ih =>
      have ha := hall a (by simp)
      simp [List.takeWhile_cons, ha, ih (fun c hc => hall c (by simp [hc]))]

theorem takeWhile1P_exact (p : Nat → Bool) (t r : Bytes) (ht : t ≠ [])
    (hall : ∀ c ∈ t, p c = true) (hr : ∀ c, r.head? = some c → p c = false) :
    takeWhile1P p (t ++ r) = some (r, t) := by
  have hempty : t.isEmpty = false := by
    cases t with
    | nil => exact absurd rfl ht
    | cons a as => rfl
  unfold takeWhile1P
  rw [takeWhile_append_exact p t r hall hr]
  simp [hempty, List.drop_left]

theorem takeWhile1P_none (p : Nat → Bool) (c : Nat) (r : Bytes) (hc : p c = false) :
    takeWhile1P p (c :: r) = none := by
  unfold takeWhile1P
  simp [List.takeWhile_cons, hc]

theorem isNotP_exact (set t r : Bytes) (ht : t ≠ [])
    (hall : ∀ c ∈ t, set.contains c = false)
    (hr : ∀ c, r.head? = some c → set.contains c = true) :
    isNotP set (t ++ r) = some (r, t) := by
  unfold isNotP
  apply takeWhile1P_exact _ _ _ ht
  · intro c hc
    simpa using hall c hc
  · intro c hc
    simpa using hr c hc

end Mailin

namespace MimeEvent

open Mailin

--------------------------------------------------------------------------------
-- Parse lemmas for the generated header lines (claim C7)
--------------------------------------------------------------------------------

theorem parametersGo_stop (n : Nat) (acc : AssocMap) (buf : Bytes)
    (h : parameterLP buf = none) : parametersGo n acc buf = some (buf, acc) := by
  cases n <;> simp [parametersGo, h]

theorem parametersGo_step (n : Nat) (acc : AssocMap) (buf rest : Bytes)
    (kv : Bytes × Bytes) (h : parameterLP buf = some (rest, kv)) :
    parametersGo (n + 1) acc buf = parametersGo n (acc.insertKV kv.1 kv.2) rest := by
  simp [parametersGo, h]

theorem parameterLP_crlf : parameterLP crlf = none := rfl

theorem tagP_crlf_crlf : tagP (bs "\r\n") crlf = some ([], bs "\r\n") := rfl

theorem crlf_not_prefix_ctLine (t : Bytes) :
    (bs "\r\n").isPrefixOf (ctLine t) = false := by
  show List.isPrefixOf (13 :: [10]) (67 :: _) = false
  simp [List.isPrefixOf]

theorem crlf_not_prefix_topLine (m : Multipart) (b : Bytes) :
    (bs "\r\n").isPrefixOf (topLine m b) = false := by
  show List.isPrefixOf (13 :: [10]) (67 :: _) = false
  simp [List.isPrefixOf]

theorem headerEndLP_ctLine (t : Bytes) : headerEndLP (ctLine t) = none := by
  unfold headerEndLP mapP tagP
  simp [crlf_not_prefix_ctLine]

theorem headerEndLP_topLine (m : Multipart) (b : Bytes) :
    headerEndLP (topLine m b) = none := by
  unfold headerEndLP mapP tagP
  simp [crlf_not_prefix_topLine]

theorem spaceLP_exact (rest : Bytes) (hr : ∀ c, rest.head? = some c → c ≠ 32) :
    spaceLP (bs " " ++ rest) = some (rest, bs " ") := by
  apply takeWhile1P_exact
  · decide
  · intro c hc
    have hb : bs " " = [32] := rfl
    rw [hb] at hc
    simp at hc
    subst hc
    rfl
  · intro c hc
    simpa using hr c hc

theorem colonSpace_exact (rest : Bytes) (hr : ∀ c, rest.head? = some c → c ≠ 32) :
    colonSpace (bs ": " ++ rest) = some (rest, bs ":" ++ bs " ") := by
  have h2 : bs ": " ++ rest = bs ":" ++ (bs " " ++ rest) := by
    have h : bs ": " = bs ":" ++ bs " " := by decide
    simp [h, List.append_assoc]
  rw [h2]
  unfold colonSpace mapP pairP
  simp [tagP_exact, spaceLP_exact rest hr]

theorem head_append_ne (t rest : Bytes) (hne : t ≠ []) (hsp : t.head? ≠ some 32) :
    ∀ c, (t ++ rest).head? = some c → c ≠ 32 := by
  intro c hc
  cases t with
  | nil => exact absurd rfl hne
  | cons a as =>
      simp at hc
      subst hc
      intro h32
      exact hsp (by simp [h32])

theorem matchHeaderKey_contentType (t rest : Bytes) (hne : t ≠ [])
    (hsp : t.head? ≠ some 32) :
    matchHeaderKey (bs "Content-Type")
        (bs "Content-Type" ++ (bs ": " ++ (t ++ rest))) =
      some (t ++ rest, bs "Content-Type") := by
  unfold matchHeaderKey terminatedP
  simp [tagNoCaseP_exact, colonSpace_exact _ (head_append_ne t rest hne hsp)]

theorem headerValue_exact (t rest : Bytes) (hne : t ≠ [])
    (hset : ∀ c ∈ t, c ≠ 59 ∧ c ≠ 13 ∧ c ≠ 10)
    (hr : ∀ c, rest.head? = some c → c = 59 ∨ c = 13 ∨ c = 10) :
    headerValueWithParameters (t ++ rest) = some (rest, t) := by
  unfold headerValueWithParameters
  apply isNotP_exact _ _ _ hne
  · intro c hc
    obtain ⟨h59, h13, h10⟩ := hset c hc
    show List.contains (bs ";\r\n") c = false
    have hrw : bs ";\r\n" = [59, 13, 10] := rfl
    simp [hrw, h59, h13, h10]
  · intro c hc
    have hrw : bs ";\r\n" = [59, 13, 10] := rfl
    rcases hr c hc with h | h | h <;> simp [hrw, h]

theorem headerLine_ctLine (t : Bytes) (hne : t ≠ [])
    (hset : ∀ c ∈ t, c ≠ 59 ∧ c ≠ 13 ∧ c ≠ 10) (hsp : t.head? ≠ some 32) :
    headerLine (ctLine t) = some (.contentType t []) := by
  have hsplit : ctLine t = bs "Content-Type" ++ (bs ": " ++ (t ++ crlf)) := by
    have h : bs "Content-Type: " = bs "Content-Type" ++ bs ": " := by decide
    simp [ctLine, h, List.append_assoc]
  have hvr : ∀ c, crlf.head? = some c → c = 59 ∨ c = 13 ∨ c = 10 := by
    intro c hc
    have hcr : crlf = 13 :: [10] := rfl
    rw [hcr] at hc
    simp at hc
    omega
  have hcontent : contentLP (ctLine t) = some ([], .contentType t []) := by
    unfold contentLP mapP headerWithParams precededP terminatedP parametersLP
    rw [hsplit]
    simp [matchHeaderKey_contentType t crlf hne hsp,
      headerValue_exact t crlf hne hset hvr,
      parametersGo_stop _ _ _ parameterLP_crlf, tagP_crlf_crlf]
  unfold headerLine
  simp [altP, headerEndLP_ctLine, hcontent]

end MimeEvent

namespace MimeEvent

open Mailin

theorem inQuotes_exact (b r : Bytes) (hb : ∀ c ∈ b, c ≠ 34 ∧ c ≠ 92) :
    inQuotes (b ++ (bs "\"" ++ r)) = some (bs "\"" ++ r, b) := by
  induction b with
  | nil =>
      show inQuotes (34 :: r) = some (34 :: r, [])
      unfold inQuotes
      simp
  | cons a as ih =>
      obtain ⟨h34, h92⟩ := hb a (by simp)
      have ih' := ih (fun c hc => hb c (by simp [hc]))
      show inQuotes (a :: (as ++ (bs "\"" ++ r))) = some (bs "\"" ++ r, a :: as)
      unfold inQuotes
      simp [h34, h92, ih']

theorem parameterLP_boundary (b r : Bytes) (hb : ∀ c ∈ b, c ≠ 34 ∧ c ≠ 92) :
    parameterLP (bs "; boundary=\"" ++ (b ++ (bs "\"" ++ r))) =
      some (r, (bs "boundary", b)) := by
  have hsplit : bs "; boundary=\"" ++ (b ++ (bs "\"" ++ r)) =
      bs ";" ++ (bs " " ++ (bs "boundary" ++ (bs "=" ++ (bs "\"" ++ (b ++ (bs "\"" ++ r)))))) := by
    have h : bs "; boundary=\"" =
        bs ";" ++ (bs " " ++ (bs "boundary" ++ (bs "=" ++ bs "\""))) := by decide
    simp [h, List.append_assoc]
  rw [hsplit]
  have hsp : ∀ c, (bs "boundary" ++ (bs "=" ++ (bs "\"" ++ (b ++ (bs "\"" ++ r))))).head? =
      some c → c ≠ 32 := by
    intro c hc
    have hh : bs "boundary" ++ (bs "=" ++ (bs "\"" ++ (b ++ (bs "\"" ++ r)))) =
        98 :: (bs "oundary" ++ (bs "=" ++ (bs "\"" ++ (b ++ (bs "\"" ++ r))))) := rfl
    rw [hh] at hc
    simp at hc
    omega
  have htok : tokenLP (bs "boundary" ++ (bs "=" ++ (bs "\"" ++ (b ++ (bs "\"" ++ r))))) =
      some (bs "=" ++ (bs "\"" ++ (b ++ (bs "\"" ++ r))), bs "boundary") := by
    apply takeWhile1P_exact
    · decide
    · intro c hc
      have hcon : bs "boundary" = [98, 111, 117, 110, 100, 97, 114, 121] := rfl
      rw [hcon] at hc
      simp at hc
      rcases hc with h | h | h | h | h | h | h | h <;> subst h <;> decide
    · intro c hc
      have hh : (bs "=" ++ (bs "\"" ++ (b ++ (bs "\"" ++ r)))).head? = some 61 := rfl
      rw [hh] at hc
      simp at hc
      subst hc
      rfl
  have htokNone : tokenLP (bs "\"" ++ (b ++ (bs "\"" ++ r))) = none := by
    have hq : bs "\"" ++ (b ++ (bs "\"" ++ r)) = 34 :: (b ++ (bs "\"" ++ r)) := rfl
    rw [hq]
    apply takeWhile1P_none
    rfl
  unfold parameterLP precededP pairP
  simp only [tagP_exact, spaceLP_exact _ hsp, htok]
  unfold parameterValue altP
  simp only [htokNone]
  unfold altP quotedString terminatedP precededP
  simp only [tagP_exact, inQuotes_exact b r hb]

theorem mimeType_multipartName (m : Multipart) :
    mimeType (multipartName m) = .multipart m := by
  cases m <;> rfl

set_option maxHeartbeats 1600000 in
theorem headerLine_topLine (m : Multipart) (b : Bytes)
    (hb : ∀ c ∈ b, c ≠ 34 ∧ c ≠ 92 ∧ c ≠ 13 ∧ c ≠ 10) :
    headerLine (topLine m b) =
      some (.contentType (multipartName m) [(bs "boundary", b)]) := by
  have hsplit : topLine m b = bs "Content-Type" ++ (bs ": " ++ (multipartName m ++
      (bs "; boundary=\"" ++ (b ++ (bs "\"" ++ crlf))))) := by
    have h : bs "Content-Type: " = bs "Content-Type" ++ bs ": " := by decide
    simp [topLine, h, List.append_assoc]
  have hmne : multipartName m ≠ [] := by cases m <;> decide
  have hmsp : (multipartName m).head? ≠ some 32 := by cases m <;> decide
  have hmset : ∀ c ∈ multipartName m, c ≠ 59 ∧ c ≠ 13 ∧ c ≠ 10 := by
    cases m <;> decide
  have hvr : ∀ c, (bs "; boundary=\"" ++ (b ++ (bs "\"" ++ crlf))).head? = some c →
      c = 59 ∨ c = 13 ∨ c = 10 := by
    intro c hc
    have hh : (bs "; boundary=\"" ++ (b ++ (bs "\"" ++ crlf))).head? = some 59 := rfl
    rw [hh] at hc
    simp at hc
    omega
  have hb2 : ∀ c ∈ b, c ≠ 34 ∧ c ≠ 92 := fun c hc => ⟨(hb c hc).1, (hb c hc).2.1⟩
  have hparam := parameterLP_boundary b crlf hb2
  have hcontent : contentLP (topLine m b) =
      some ([], .contentType (multipartName m) [(bs "boundary", b)]) := by
    unfold contentLP mapP headerWithParams precededP terminatedP parametersLP
    rw [hsplit]
    simp only [matchHeaderKey_contentType (multipartName m) _ hmne hmsp,
      headerValue_exact (multipartName m) _ hmne hmset hvr]
    simp only [parametersGo_step _ _ _ _ _ hparam,
      parametersGo_stop _ _ _ parameterLP_crlf, tagP_crlf_crlf]
    simp [AssocMap.insertKV]
  unfold headerLine
  simp [altP, headerEndLP_topLine, hcontent]

end MimeEvent

namespace MimeEvent

open Mailin

--------------------------------------------------------------------------------
-- Boundary recognition lemmas (claim C7)
--------------------------------------------------------------------------------

theorem isPrefixOf_self_append (t r : Bytes) : t.isPrefixOf (t ++ r) = true :=
  List.isPrefixOf_iff_prefix.mpr (List.prefix_append t r)

theorem isOpen_sep (p : EventParser) (b : Bytes)
    (hb : p.boundary = some (bs "--" ++ b)) :
    p.isOpenBoundary (sepLine b) = true := by
  unfold EventParser.isOpenBoundary
  rw [hb]
  exact isPrefixOf_self_append _ _

theorem isClose_sep (p : EventParser) (b : Bytes)
    (hb : p.boundary = some (bs "--" ++ b)) :
    p.isCloseBoundary (sepLine b) = false := by
  unfold EventParser.isCloseBoundary
  rw [hb]
  show ((bs "--" ++ b).isPrefixOf (sepLine b) &&
      decide ((sepLine b).length > (bs "--" ++ b).length + 2) &&
      (bs "--\r\n").isSuffixOf (sepLine b)) = false
  have hlen : (sepLine b).length = (bs "--" ++ b).length + 2 := by
    have h2 : (bs "\r\n").length = 2 := rfl
    simp [sepLine, crlf, List.length_append]
    omega
  have hd : decide ((sepLine b).length > (bs "--" ++ b).length + 2) = false := by
    rw [hlen]
    simp
  rw [hd]
  simp

theorem isOpen_close (p : EventParser) (b : Bytes)
    (hb : p.boundary = some (bs "--" ++ b)) :
    p.isOpenBoundary (closeLine b) = true := by
  unfold EventParser.isOpenBoundary
  rw [hb]
  have hcl : closeLine b = (bs "--" ++ b) ++ (bs "--" ++ crlf) := by
    simp [closeLine, List.append_assoc]
  rw [hcl]
  exact isPrefixOf_self_append _ _

theorem isClose_close (p : EventParser) (b : Bytes)
    (hb : p.boundary = some (bs "--" ++ b)) :
    p.isCloseBoundary (closeLine b) = true := by
  unfold EventParser.isCloseBoundary
  rw [hb]
  have hcl : closeLine b = (bs "--" ++ b) ++ (bs "--" ++ crlf) := by
    simp [closeLine, List.append_assoc]
  have h1 : (bs "--" ++ b).isPrefixOf (closeLine b) = true := by
    rw [hcl]
    exact isPrefixOf_self_append _ _
  have hlen : (closeLine b).length = (bs "--" ++ b).length + 4 := by
    simp [closeLine, crlf, List.length_append]
    have h2 : (bs "--").length = 2 := rfl
    have h3 : (bs "\r\n").length = 2 := rfl
    omega
  have h2 : decide ((closeLine b).length > (bs "--" ++ b).length + 2) = true := by
    rw [hlen]
    simp
  have h3 : (bs "--\r\n").isSuffixOf (closeLine b) = true := by
    have hq : bs "--" ++ crlf = bs "--\r\n" := by decide
    rw [hcl, hq]
    exact List.isSuffixOf_iff_suffix.mpr (List.suffix_append _ _)
  show ((bs "--" ++ b).isPrefixOf (closeLine b) &&
      decide ((closeLine b).length > (bs "--" ++ b).length + 2) &&
      (bs "--\r\n").isSuffixOf (closeLine b)) = true
  rw [h1, h2, h3]
  rfl

theorem isOpen_not_boundary (p : EventParser) (b l : Bytes)
    (hb : p.boundary = some (bs "--" ++ b)) (hl : (bs "--" ++ b).isPrefixOf l = false) :
    p.isOpenBoundary l = false := by
  unfold EventParser.isOpenBoundary
  rw [hb]
  exact hl

theorem isClose_not_boundary (p : EventParser) (b l : Bytes)
    (hb : p.boundary = some (bs "--" ++ b)) (hl : (bs "--" ++ b).isPrefixOf l = false) :
    p.isCloseBoundary l = false := by
  unfold EventParser.isCloseBoundary
  rw [hb]
  show ((bs "--" ++ b).isPrefixOf l &&
      decide (l.length > (bs "--" ++ b).length + 2) &&
      (bs "--\r\n").isSuffixOf l) = false
  rw [hl]
  simp

end MimeEvent

namespace MimeEvent

open Mailin

--------------------------------------------------------------------------------
-- Single-write behaviour of the event parser on generated lines (claim C7)
--------------------------------------------------------------------------------

theorem crlf_prefix_crlf : (bs "\r\n").isPrefixOf crlf = true := rfl

theorem crlf_length : crlf.length = 2 := rfl

theorem handleWrite_buffer (p : EventParser) (buf : Bytes)
    (hst : p.state = .header ∨ p.state = .multipartHeader ∨ p.state = .partStart)
    (hhb : p.headerBuffer = HeaderBuffer.init)
    (hcr : (bs "\r\n").isPrefixOf buf = false) :
    p.handleWrite buf =
      some ({ p with headerBuffer := HeaderBuffer.mk true buf.length buf }, []) := by
  obtain ⟨st, off, ct, bd, stk, hb⟩ := p
  simp only at hst hhb
  subst hhb
  rcases hst with h | h | h <;> subst h <;>
    simp [EventParser.handleWrite, EventParser.handleHeader, hcr,
      HeaderBuffer.nextLine, HeaderBuffer.init]

theorem handleWrite_partFlush (p : EventParser) (t : Bytes) (n : Nat)
    (hst : p.state = .partStart)
    (hhb : p.headerBuffer = HeaderBuffer.mk true n (ctLine t))
    (hct : headerLine (ctLine t) = some (.contentType t []))
    (hmt : mimeType t = .type t) :
    p.handleWrite crlf =
      some ({ p with state := .body,
                     offset := p.offset + n + 2,
                     contentType := .type t,
                     multipartStack := p.multipartStack ++ pushFrame p.contentType p.boundary,
                     headerBuffer := HeaderBuffer.init },
            [Event.partStart p.offset, Event.header (.contentType t []),
             Event.bodyStart (p.offset + n + 2)]) := by
  obtain ⟨st, off, ct, bd, stk, hb⟩ := p
  simp only at hst hhb
  subst hst
  subst hhb
  cases ct <;> cases bd <;>
    simp [EventParser.handleWrite, EventParser.handleHeader, HeaderBuffer.takeBuf,
      crlf_prefix_crlf, EventParser.handleLine, EventParser.headerField,
      crlf_not_prefix_ctLine, hct, EventParser.contentTypeUpd, hmt, pushFrame,
      HeaderBuffer.init, crlf_length, Nat.add_assoc]

end MimeEvent

namespace MimeEvent

open Mailin

theorem handleWrite_bodyLine (p : EventParser) (b l : Bytes)
    (hst : p.state = .body) (hbd : p.boundary = some (bs "--" ++ b))
    (hl : (bs "--" ++ b).isPrefixOf l = false) :
    p.handleWrite l = some ({ p with offset := p.offset + l.length }, [.body l]) := by
  obtain ⟨st, off, ct, bd, stk, hb⟩ := p
  simp only at hst hbd
  subst hst
  subst hbd
  simp [EventParser.handleWrite, EventParser.handleLine,
    EventParser.isCloseBoundary, EventParser.isOpenBoundary, hl]

theorem handleWrite_preambleLine (p : EventParser) (b l : Bytes)
    (hst : p.state = .multipartPreamble) (hbd : p.boundary = some (bs "--" ++ b))
    (hl : (bs "--" ++ b).isPrefixOf l = false) :
    p.handleWrite l = some ({ p with offset := p.offset + l.length }, []) := by
  obtain ⟨st, off, ct, bd, stk, hb⟩ := p
  simp only at hst hbd
  subst hst
  subst hbd
  simp [EventParser.handleWrite, EventParser.handleLine, EventParser.isOpenBoundary, hl]

theorem handleWrite_sepPreamble (p : EventParser) (b : Bytes) (m : Multipart)
    (hst : p.state = .multipartPreamble) (hbd : p.boundary = some (bs "--" ++ b))
    (hct : p.contentType = .multipart m) :
    p.handleWrite (sepLine b) =
      some ({ p with state := .partStart, offset := p.offset + (sepLine b).length },
            [.multipartStart m]) := by
  obtain ⟨st, off, ct, bd, stk, hb⟩ := p
  simp only at hst hbd hct
  subst hst
  subst hbd
  subst hct
  have ho := isOpen_sep
    (EventParser.mk .multipartPreamble off (.multipart m) (some (bs "--" ++ b)) stk hb) b rfl
  simp [EventParser.handleWrite, EventParser.handleLine, ho]

theorem handleWrite_sepBody (p : EventParser) (b : Bytes)
    (hst : p.state = .body) (hbd : p.boundary = some (bs "--" ++ b)) :
    p.handleWrite (sepLine b) =
      some ({ p with state := .partStart, offset := p.offset + (sepLine b).length },
            [.partEnd p.offset]) := by
  obtain ⟨st, off, ct, bd, stk, hb⟩ := p
  simp only at hst hbd
  subst hst
  subst hbd
  have ho := isOpen_sep (EventParser.mk .body off ct (some (bs "--" ++ b)) stk hb) b rfl
  have hc := isClose_sep (EventParser.mk .body off ct (some (bs "--" ++ b)) stk hb) b rfl
  simp [EventParser.handleWrite, EventParser.handleLine, ho, hc]

theorem handleWrite_closeBody (p : EventParser) (b : Bytes)
    (hst : p.state = .body) (hbd : p.boundary = some (bs "--" ++ b)) :
    ∃ q : EventParser, p.handleWrite (closeLine b) =
      some (q, [.partEnd p.offset, .multipartEnd]) := by
  obtain ⟨st, off, ct, bd, stk, hb⟩ := p
  simp only at hst hbd
  subst hst
  subst hbd
  have hc := isClose_close (EventParser.mk .body off ct (some (bs "--" ++ b)) stk hb) b rfl
  cases hlast : stk.getLast? <;>
    simp [EventParser.handleWrite, EventParser.handleLine, hc, hlast]

theorem runWrites_append (p : EventParser) (xs ys : List Bytes)
    (p1 : EventParser) (e1 : List Event) (p2 : EventParser) (e2 : List Event)
    (h1 : runWrites p xs = some (p1, e1)) (h2 : runWrites p1 ys = some (p2, e2)) :
    runWrites p (xs ++ ys) = some (p2, e1 ++ e2) := by
  induction xs generalizing p e1 with
  | nil =>
      simp only [runWrites, Option.some.injEq, Prod.mk.injEq] at h1
      obtain ⟨hp, he⟩ := h1
      subst hp
      subst he
      simpa using h2
  | cons x xs ih =>
      rw [List.cons_append]
      unfold runWrites at h1 ⊢
      cases hw : p.handleWrite x with
      | none => rw [hw] at h1; simp at h1
      | some pe =>
          obtain ⟨pm, em⟩ := pe
          rw [hw] at h1
          dsimp only at h1 ⊢
          cases hr : runWrites pm xs with
          | none => rw [hr] at h1; simp at h1
          | some pe2 =>
              obtain ⟨pm2, em2⟩ := pe2
              rw [hr] at h1
              simp only [Option.some.injEq, Prod.mk.injEq] at h1
              obtain ⟨hp, he⟩ := h1
              subst hp
              subst he
              rw [ih pm em2 hr]
              simp [List.append_assoc]

end MimeEvent

namespace MimeEvent

open Mailin

theorem runWrites_body (b : Bytes) (lines : List Bytes) (p : EventParser)
    (hst : p.state = .body) (hbd : p.boundary = some (bs "--" ++ b))
    (hl : ∀ l ∈ lines, notBoundary b l) :
    ∃ off, runWrites p lines = some ({ p with offset := off }, lines.map Event.body) := by
  induction lines generalizing p with
  | nil =>
      refine ⟨p.offset, ?_⟩
      obtain ⟨st, off, ct, bd, stk, hb⟩ := p
      simp [runWrites]
  | cons l ls ih =>
      have hlb : (bs "--" ++ b).isPrefixOf l = false := by
        exact Bool.eq_false_iff.mpr (hl l (by simp))
      have h1 := handleWrite_bodyLine p b l hst hbd hlb
      obtain ⟨off, h2⟩ := ih { p with offset := p.offset + l.length }
        (by simpa using hst) (by simpa using hbd) (fun x hx => hl x (by simp [hx]))
      refine ⟨off, ?_⟩
      unfold runWrites
      rw [h1]
      dsimp only
      rw [h2]
      simp

theorem runWrites_preamble (b : Bytes) (lines : List Bytes) (p : EventParser)
    (hst : p.state = .multipartPreamble) (hbd : p.boundary = some (bs "--" ++ b))
    (hl : ∀ l ∈ lines, notBoundary b l) :
    ∃ off, runWrites p lines = some ({ p with offset := off }, []) := by
  induction lines generalizing p with
  | nil =>
      refine ⟨p.offset, ?_⟩
      obtain ⟨st, off, ct, bd, stk, hb⟩ := p
      simp [runWrites]
  | cons l ls ih =>
      have hlb : (bs "--" ++ b).isPrefixOf l = false := by
        exact Bool.eq_false_iff.mpr (hl l (by simp))
      have h1 := handleWrite_preambleLine p b l hst hbd hlb
      obtain ⟨off, h2⟩ := ih { p with offset := p.offset + l.length }
        (by simpa using hst) (by simpa using hbd) (fun x hx => hl x (by simp [hx]))
      refine ⟨off, ?_⟩
      unfold runWrites
      rw [h1]
      dsimp only
      rw [h2]
      simp

end MimeEvent

namespace MimeEvent

open Mailin

set_option maxHeartbeats 1600000 in
theorem runWrites_top (m : Multipart) (b : Bytes)
    (hb : ∀ c ∈ b, c ≠ 34 ∧ c ≠ 92 ∧ c ≠ 13 ∧ c ≠ 10) :
    runWrites EventParser.new [topLine m b, crlf] =
      some ({ state := .multipartPreamble
              offset := (topLine m b).length + 2
              contentType := .multipart m
              boundary := some (bs "--" ++ b)
              multipartStack := []
              headerBuffer := HeaderBuffer.init },
            [.start, .header (.contentType (multipartName m) [(bs "boundary", b)])]) := by
  simp [runWrites, EventParser.new, EventParser.handleWrite, EventParser.handleHeader,
    HeaderBuffer.init, HeaderBuffer.nextLine, HeaderBuffer.takeBuf,
    crlf_not_prefix_topLine, crlf_prefix_crlf, crlf_length,
    EventParser.handleLine, EventParser.headerField,
    headerLine_topLine m b hb, EventParser.contentTypeUpd,
    mimeType_multipartName, AssocMap.getKV, List.find?]

end MimeEvent

namespace MimeEvent

open Mailin

theorem runWrites_partLines (b : Bytes) (pt : SimplePart) (p : EventParser)
    (hst : p.state = .partStart) (hhb : p.headerBuffer = HeaderBuffer.init)
    (hbd : p.boundary = some (bs "--" ++ b)) (hok : partOk b pt) :
    ∃ off, runWrites p (partLines pt) =
      some ({ p with state := .body
                     offset := off
                     contentType := .type pt.ctype
                     multipartStack :=
                       p.multipartStack ++ pushFrame p.contentType p.boundary
                     headerBuffer := HeaderBuffer.init },
            [.partStart p.offset, .header (.contentType pt.ctype []),
             .bodyStart (p.offset + (ctLine pt.ctype).length + 2)]
              ++ pt.bodyLines.map Event.body) := by
  obtain ⟨⟨hct1, hct2, hct3, hct4⟩, hbody⟩ := hok
  have h1 := handleWrite_buffer p (ctLine pt.ctype) (by simp [hst]) hhb
    (crlf_not_prefix_ctLine pt.ctype)
  have hline := headerLine_ctLine pt.ctype hct1 hct2 hct3
  have h2 := handleWrite_partFlush
    { p with headerBuffer := HeaderBuffer.mk true (ctLine pt.ctype).length (ctLine pt.ctype) }
    pt.ctype (ctLine pt.ctype).length (by simpa using hst) rfl hline hct4
  obtain ⟨off, h3⟩ := runWrites_body b pt.bodyLines
    { p with state := .body
             offset := p.offset + (ctLine pt.ctype).length + 2
             contentType := .type pt.ctype
             multipartStack := p.multipartStack ++ pushFrame p.contentType p.boundary
             headerBuffer := HeaderBuffer.init }
    rfl (by simpa using hbd) hbody
  refine ⟨off, ?_⟩
  show runWrites p (ctLine pt.ctype :: crlf :: pt.bodyLines) = _
  unfold runWrites
  rw [h1]
  dsimp only
  unfold runWrites
  rw [h2]
  dsimp only
  rw [h3]
  simp

end MimeEvent

namespace MimeEvent

open Mailin

theorem countPartStart_nil : countPartStart [] = 0 := rfl

theorem countPartEnd_nil : countPartEnd [] = 0 := rfl

theorem countMultipartStart_nil : countMultipartStart [] = 0 := rfl

theorem countMultipartEnd_nil : countMultipartEnd [] = 0 := rfl

theorem countPartStart_append (l1 l2 : List Event) :
    countPartStart (l1 ++ l2) = countPartStart l1 + countPartStart l2 := by
  simp [countPartStart, List.countP_append]

theorem countPartEnd_append (l1 l2 : List Event) :
    countPartEnd (l1 ++ l2) = countPartEnd l1 + countPartEnd l2 := by
  simp [countPartEnd, List.countP_append]

theorem countMultipartStart_append (l1 l2 : List Event) :
    countMultipartStart (l1 ++ l2) =
      countMultipartStart l1 + countMultipartStart l2 := by
  simp [countMultipartStart, List.countP_append]

theorem countMultipartEnd_append (l1 l2 : List Event) :
    countMultipartEnd (l1 ++ l2) = countMultipartEnd l1 + countMultipartEnd l2 := by
  simp [countMultipartEnd, List.countP_append]

theorem countPartStart_cons (e : Event) (l : List Event) :
    countPartStart (e :: l) =
      countPartStart l +
        (if (match e with | .partStart _ => true | _ => false) then 1 else 0) := by
  simp [countPartStart, List.countP_cons]

theorem countPartEnd_cons (e : Event) (l : List Event) :
    countPartEnd (e :: l) =
      countPartEnd l +
        (if (match e with | .partEnd _ => true | _ => false) then 1 else 0) := by
  simp [countPartEnd, List.countP_cons]

theorem countMultipartStart_cons (e : Event) (l : List Event) :
    countMultipartStart (e :: l) =
      countMultipartStart l +
        (if (match e with | .multipartStart _ => true | _ => false) then 1 else 0) := by
  simp [countMultipartStart, List.countP_cons]

theorem countMultipartEnd_cons (e : Event) (l : List Event) :
    countMultipartEnd (e :: l) =
      countMultipartEnd l +
        (if (match e with | .multipartEnd => true | _ => false) then 1 else 0) := by
  simp [countMultipartEnd, List.countP_cons]

theorem countPartStart_map_body (ls : List Bytes) :
    countPartStart (ls.map Event.body) = 0 := by
  induction ls with
  | nil => rfl
  | cons l ls ih => simpa [countPartStart, List.countP_cons] using ih

theorem countPartEnd_map_body (ls : List Bytes) :
    countPartEnd (ls.map Event.body) = 0 := by
  induction ls with
  | nil => rfl
  | cons l ls ih => simpa [countPartEnd, List.countP_cons] using ih

theorem countMultipartStart_map_body (ls : List Bytes) :
    countMultipartStart (ls.map Event.body) = 0 := by
  induction ls with
  | nil => rfl
  | cons l ls ih => simpa [countMultipartStart, List.countP_cons] using ih

theorem countMultipartEnd_map_body (ls : List Bytes) :
    countMultipartEnd (ls.map Event.body) = 0 := by
  induction ls with
  | nil => rfl
  | cons l ls ih => simpa [countMultipartEnd, List.countP_cons] using ih

end MimeEvent

namespace MimeEvent

open Mailin

theorem partsLines_cons_cons (b : Bytes) (p r : SimplePart) (rs : List SimplePart) :
    partsLines b (p :: r :: rs) = partLines p ++ (sepLine b :: partsLines b (r :: rs)) := by
  simp [partsLines]

theorem runWrites_parts (b : Bytes) (parts : List SimplePart) :
    ∀ (p : EventParser), p.state = .partStart → p.headerBuffer = HeaderBuffer.init →
      p.boundary = some (bs "--" ++ b) → parts ≠ [] → (∀ q ∈ parts, partOk b q) →
      ∃ q evs, runWrites p (partsLines b parts) = some (q, evs) ∧
        countPartStart evs = parts.length ∧ countPartEnd evs = parts.length ∧
        countMultipartStart evs = 0 ∧ countMultipartEnd evs = 1 := by
  induction parts with
  | nil => intro p _ _ _ hne _; exact absurd rfl hne
  | cons pt rest ih =>
      intro p hst hhb hbd _ hparts
      obtain ⟨off1, h1⟩ := runWrites_partLines b pt p hst hhb hbd (hparts pt (by simp))
      cases rest with
      | nil =>
          obtain ⟨q, hclose⟩ := handleWrite_closeBody
            { p with state := .body
                     offset := off1
                     contentType := .type pt.ctype
                     multipartStack :=
                       p.multipartStack ++ pushFrame p.contentType p.boundary
                     headerBuffer := HeaderBuffer.init } b rfl (by simpa using hbd)
          have h2 : runWrites
              { p with state := .body
                       offset := off1
                       contentType := .type pt.ctype
                       multipartStack :=
                         p.multipartStack ++ pushFrame p.contentType p.boundary
                       headerBuffer := HeaderBuffer.init } [closeLine b] =
              some (q, [.partEnd off1, .multipartEnd]) := by
            unfold runWrites
            rw [hclose]
            dsimp only
            simp [runWrites]
          have hall := runWrites_append p (partLines pt) [closeLine b] _ _ q _ h1 h2
          refine ⟨q, ([Event.partStart p.offset, Event.header (Header.contentType pt.ctype []),
              Event.bodyStart (p.offset + (ctLine pt.ctype).length + 2)] ++
              pt.bodyLines.map Event.body) ++ [Event.partEnd off1, Event.multipartEnd],
            ?_, ?_, ?_, ?_, ?_⟩
          · show runWrites p (partLines pt ++ [closeLine b]) = _
            exact hall
          · simp [countPartStart_append, countPartStart_cons, countPartStart_nil,
              countPartStart_map_body]
          · simp [countPartEnd_append, countPartEnd_cons, countPartEnd_nil,
              countPartEnd_map_body]
          · simp [countMultipartStart_append, countMultipartStart_cons,
              countMultipartStart_nil, countMultipartStart_map_body]
          · simp [countMultipartEnd_append, countMultipartEnd_cons,
              countMultipartEnd_nil, countMultipartEnd_map_body]
      | cons r rs =>
          have hsep := handleWrite_sepBody
            { p with state := .body
                     offset := off1
                     contentType := .type pt.ctype
                     multipartStack :=
                       p.multipartStack ++ pushFrame p.contentType p.boundary
                     headerBuffer := HeaderBuffer.init } b rfl (by simpa using hbd)
          obtain ⟨q, evs, hrest, hc1, hc2, hc3, hc4⟩ := ih
            { p with state := .partStart
                     offset := off1 + (sepLine b).length
                     contentType := .type pt.ctype
                     multipartStack :=
                       p.multipartStack ++ pushFrame p.contentType p.boundary
                     headerBuffer := HeaderBuffer.init }
            rfl rfl (by simpa using hbd) (by simp)
            (fun x hx => hparts x (by simp [hx]))
          have h2 : runWrites
              { p with state := .body
                       offset := off1
                       contentType := .type pt.ctype
                       multipartStack :=
                         p.multipartStack ++ pushFrame p.contentType p.boundary
                       headerBuffer := HeaderBuffer.init }
              (sepLine b :: partsLines b (r :: rs)) =
              some (q, [.partEnd off1] ++ evs) := by
            unfold runWrites
            rw [hsep]
            dsimp only
            rw [hrest]
          have hall := runWrites_append p (partLines pt)
            (sepLine b :: partsLines b (r :: rs)) _ _ q _ h1 h2
          refine ⟨q, ([Event.partStart p.offset, Event.header (Header.contentType pt.ctype []),
              Event.bodyStart (p.offset + (ctLine pt.ctype).length + 2)] ++
              pt.bodyLines.map Event.body) ++ ([Event.partEnd off1] ++ evs),
            ?_, ?_, ?_, ?_, ?_⟩
          · rw [partsLines_cons_cons]
            exact hall
          · simp [countPartStart_append, countPartStart_cons, countPartStart_nil,
              countPartStart_map_body, hc1]
          · simp [countPartEnd_append, countPartEnd_cons, countPartEnd_nil,
              countPartEnd_map_body, hc2]
          · simp [countMultipartStart_append, countMultipartStart_cons,
              countMultipartStart_nil, countMultipartStart_map_body, hc3]
          · simp [countMultipartEnd_append, countMultipartEnd_cons,
              countMultipartEnd_nil, countMultipartEnd_map_body, hc4]

end MimeEvent

namespace MimeEvent

open Mailin

theorem flatDocLines_eq (m : Multipart) (b : Bytes) (preamble : List Bytes)
    (parts : List SimplePart) :
    flatDocLines m b preamble parts =
      [topLine m b, crlf] ++ (preamble ++ (sepLine b :: partsLines b parts)) := by
  simp [flatDocLines]

/-- C7: on every well-formed single-level multipart document the event stream
exists, its part and multipart events balance (one PartEnd per PartStart, one
MultipartEnd for the one MultipartStart), and it opens with Start and closes
with End. -/
theorem c7_flat_multipart_balanced (m : Multipart) (b : Bytes) (preamble : List Bytes)
    (parts : List SimplePart)
    (hbnd : boundaryOk b) (hpre : ∀ l ∈ preamble, notBoundary b l)
    (hne : parts ≠ []) (hparts : ∀ q ∈ parts, partOk b q) :
    ∃ evs, parseDoc (flatDocLines m b preamble parts) = some evs ∧
      countPartStart evs = parts.length ∧ countPartEnd evs = parts.length ∧
      countMultipartStart evs = 1 ∧ countMultipartEnd evs = 1 ∧
      evs.head? = some .start ∧ evs.getLast? = some .End := by
  have h0 := runWrites_top m b hbnd
  obtain ⟨off2, h2⟩ := runWrites_preamble b preamble
    { state := .multipartPreamble
      offset := (topLine m b).length + 2
      contentType := .multipart m
      boundary := some (bs "--" ++ b)
      multipartStack := []
      headerBuffer := HeaderBuffer.init } rfl rfl hpre
  have hsep := handleWrite_sepPreamble
    { state := .multipartPreamble
      offset := off2
      contentType := .multipart m
      boundary := some (bs "--" ++ b)
      multipartStack := []
      headerBuffer := HeaderBuffer.init } b m rfl rfl rfl
  obtain ⟨q, evs, hp, hc1, hc2, hc3, hc4⟩ := runWrites_parts b parts
    { state := .partStart
      offset := off2 + (sepLine b).length
      contentType := .multipart m
      boundary := some (bs "--" ++ b)
      multipartStack := []
      headerBuffer := HeaderBuffer.init } rfl rfl rfl hne hparts
  have hsep2 : runWrites
      { state := .multipartPreamble
        offset := off2
        contentType := .multipart m
        boundary := some (bs "--" ++ b)
        multipartStack := []
        headerBuffer := HeaderBuffer.init } (sepLine b :: partsLines b parts) =
      some (q, [Event.multipartStart m] ++ evs) := by
    unfold runWrites
    rw [hsep]
    dsimp only
    rw [hp]
  have h2' := runWrites_append
    { state := .multipartPreamble
      offset := (topLine m b).length + 2
      contentType := .multipart m
      boundary := some (bs "--" ++ b)
      multipartStack := []
      headerBuffer := HeaderBuffer.init }
    preamble (sepLine b :: partsLines b parts) _ _ q _ h2 hsep2
  have hall := runWrites_append EventParser.new [topLine m b, crlf]
    (preamble ++ (sepLine b :: partsLines b parts)) _ _ q _ h0 h2'
  refine ⟨([Event.start,
      Event.header (Header.contentType (multipartName m) [(bs "boundary", b)])] ++
      ([] ++ ([Event.multipartStart m] ++ evs))) ++ [Event.End],
    ?_, ?_, ?_, ?_, ?_, ?_, ?_⟩
  · unfold parseDoc
    rw [flatDocLines_eq, hall]
  · simp [countPartStart_append, countPartStart_cons, countPartStart_nil,
      countPartStart_map_body, hc1]
  · simp [countPartEnd_append, countPartEnd_cons, countPartEnd_nil,
      countPartEnd_map_body, hc2]
  · simp [countMultipartStart_append, countMultipartStart_cons,
      countMultipartStart_nil, countMultipartStart_map_body, hc3]
  · simp [countMultipartEnd_append, countMultipartEnd_cons,
      countMultipartEnd_nil, countMultipartEnd_map_body, hc4]
  · simp
  · exact List.getLast?_concat _

end MimeEvent

namespace MimeEvent

open Mailin

/-- C7 counterexample: the nested multipart document produces an event
stream with two MultipartStart events but only one MultipartEnd (and two
PartStart against one PartEnd), so the balance claimed for every
well-formed fully-consumed input fails on nested multiparts. -/
theorem c7_nested_multipart_unbalanced :
    (parseDoc nestedDocLines).map
      (fun evs => (countMultipartStart evs, countMultipartEnd evs,
        countPartStart evs, countPartEnd evs)) = some (2, 1, 2, 1) := by
  rfl

/-- Witness for C7: a concrete one-part multipart/mixed document with a
preamble line satisfies the amended balance statement. -/
theorem c7_flat_multipart_balanced_witness :
    ∃ evs, parseDoc (flatDocLines .mixed (bs "XX") [bs "pre\r\n"]
        [⟨bs "text/plain", [bs "hi\r\n"]⟩]) = some evs ∧
      countPartStart evs = 1 ∧ countPartEnd evs = 1 ∧
      countMultipartStart evs = 1 ∧ countMultipartEnd evs = 1 ∧
      evs.head? = some .start ∧ evs.getLast? = some .End := by
  have h := c7_flat_multipart_balanced .mixed (bs "XX") [bs "pre\r\n"]
    [⟨bs "text/plain", [bs "hi\r\n"]⟩]
    (by unfold boundaryOk; decide)
    (by intro l hl
        simp at hl
        subst hl
        unfold notBoundary
        decide)
    (by simp)
    (by intro q hq
        simp at hq
        subst hq
        refine ⟨⟨by decide, by decide, by decide, by decide⟩, ?_⟩
        intro l hl
        simp at hl
        subst hl
        unfold notBoundary
        decide)
  exact h

end MimeEvent
